import Mathlib

set_option autoImplicit false

/-
Shallow embedding of the resource graph builder of the repository
list-and-map-aws-resources.

Embedded sources:
* src/app/components/ResourceMap.tsx — the richest component variant:
  its createNodes (lines 234-348, layouts regional / layered / grouped /
  circular), createNodeObject (350-375), createEdges with the
  createUniqueEdgeId allocator and click-to-select styling (377-704).
* src/unnamed/part_004, first component copy — its createNodes
  (lines 64-138, the layered hierarchy layout) and createEdges with
  createEdgeWithSelection (167-466).

Modelling conventions: TypeScript strings are String, numbers held in
pixel coordinates are cast into the reals (the circular layout needs
cos and sin), optional fields are Option, JavaScript Set objects are
lists whose membership is what the code tests, and JavaScript objects
used as string-keyed dictionaries are insertion-ordered association
lists, matching the enumeration order of Object.entries for the
non-numeric keys (regions, service families) the component stores.
-/

namespace AwsMap

/-- Relationship record of a discovered resource, after the optional
relationships field of the AWSResource interface in
src/app/components/ResourceMap.tsx lines 28-49; the interface of
src/unnamed/part_004 declares the subset up to volumes. -/
structure Relationships where
  securityGroups : Option (List String) := none
  targetGroups : Option (List String) := none
  loadBalancer : Option String := none
  dnsRecords : Option (List String) := none
  certificate : Option String := none
  instances : Option (List String) := none
  volumes : Option (List String) := none
  cloudfront : Option String := none
  repository : Option String := none
  distribution : Option String := none
  origin : Option String := none
  hostedZone : Option String := none
  aliases : Option (List String) := none
  wafAcl : Option String := none
  wafRules : Option (List String) := none
  wafAssociations : Option (List String) := none
  protectedBy : Option String := none
  services : Option (List String) := none
  protects : Option (List String) := none
  bucket : Option String := none
deriving DecidableEq

/-- One discovered cloud entity (the AWSResource interface). -/
structure AWSResource where
  type : String := ""
  serviceType : String := ""
  name : String := ""
  id : String := ""
  region : String := ""
  url : String := ""
  relationships : Option Relationships := none
deriving DecidableEq

/-- Layout selector of ResourceMap.tsx. The LayoutSettings union in the
source lists layered, grouped and regional only, yet createNodes also
carries a branch testing for circular; the enumeration therefore has all
four values. -/
inductive HierarchyType where
  | regional
  | layered
  | grouped
  | circular
deriving DecidableEq

/-- LayoutSettings of ResourceMap.tsx (lines 57-61). -/
structure LayoutSettings where
  verticalSpacing : Nat
  horizontalSpacing : Nat
  hierarchyType : HierarchyType

/-! ### JavaScript string primitives used by the edge rules -/

/-- Model of the JavaScript endsWith test. -/
def jsEndsWith (s t : String) : Bool := t.data.isSuffixOf s.data

/-- Model of the JavaScript startsWith test. -/
def jsStartsWith (s t : String) : Bool := t.data.isPrefixOf s.data

/-- Model of the JavaScript includes test: the second string occurs
contiguously inside the first. -/
def jsIncludes (s t : String) : Bool :=
  s.data.tails.any (fun suf => t.data.isPrefixOf suf)

/-- Model of name.replace with the pattern of one trailing dot: drops a
final dot when present, otherwise returns the string unchanged. -/
def stripTrailingDot (s : String) : String :=
  if jsEndsWith s "." then s.dropRight 1 else s

/-- Decimal digit character for a digit value. -/
def digitChar (d : Nat) : Char := Char.ofNat (48 + d)

/-- Fuel-driven decimal rendering of a natural number, most significant
digit first. The fuel argument only bounds the recursion; any fuel above
the number itself is enough. -/
def natToStringAux : Nat → Nat → List Char
  | 0, _ => []
  | fuel + 1, n =>
      if n < 10 then [digitChar n]
      else natToStringAux fuel (n / 10) ++ [digitChar (n % 10)]

/-- Model of the JavaScript number-to-string conversion inside template
literals, for the natural counters the edge-id allocator interpolates. -/
def natToString (n : Nat) : String := ⟨natToStringAux (n + 1) n⟩

/-- Decimal decoding used to show that natToString is injective. -/
def decodeDigits (cs : List Char) : Nat :=
  cs.foldl (fun acc c => acc * 10 + (c.toNat - 48)) 0

/-! ### Derived graph structures -/

/-- Derived edge: identifier, endpoint ids, label and stroke color (the
only styling channel the selection state reaches). -/
structure Edge where
  id : String
  source : String
  target : String
  label : String
  stroke : String
deriving DecidableEq

/-- Style-free view of an edge: everything except the stroke color. -/
def dropStyle (e : Edge) : String × String × String × String :=
  (e.id, e.source, e.target, e.label)

/-- Build state shared by both edge builders: the emitted edges plus the
set of identifiers seen so far (usedKeys in ResourceMap.tsx, addedEdges
in part_004), modelled as the list of its insertions. -/
structure EdgeState where
  edges : List Edge
  used : List String

/-- Projection of an optional relationship id to the edges it yields. -/
def optList {α : Type} (o : Option String) (f : String → α) : List α :=
  match o with
  | none => []
  | some x => [f x]

/-- Projection of an optional relationship id list to its edges, firing
only when the field is present (a missing field yields nothing). -/
def listList {α : Type} (o : Option (List String)) (f : String → α) : List α :=
  match o with
  | none => []
  | some xs => xs.map f

/-- Lookup of an optional scalar relationship through the optional
relationships record (the ?. chain of the source). -/
def relOpt (r : AWSResource) (f : Relationships → Option String) : Option String :=
  match r.relationships with
  | none => none
  | some rel => f rel

/-- Lookup of an optional list relationship through the optional
relationships record; absence collapses to the empty list. -/
def relList (r : AWSResource) (f : Relationships → Option (List String)) : List String :=
  match r.relationships with
  | none => []
  | some rel => (f rel).getD []

/-! ### Grouping (the reduce-into-Record idiom of createNodes) -/

/-- Insertion step of the grouping reduce: append the resource to the
bucket of its key, or open a fresh bucket at the end. -/
def insertGrouped (k : String) (r : AWSResource) :
    List (String × List AWSResource) → List (String × List AWSResource)
  | [] => [(k, [r])]
  | g :: gs => if g.1 = k then (g.1, g.2 ++ [r]) :: gs else g :: insertGrouped k r gs

/-- Grouping of resources by a string key, preserving first-occurrence
order of the keys and input order inside each bucket, the behavior of
the reduce plus Object.entries idiom of createNodes. -/
def groupByKey (key : AWSResource → String) (rs : List AWSResource) :
    List (String × List AWSResource) :=
  rs.foldl (fun acc r => insertGrouped (key r) r acc) []

/-- Sum of the bucket sizes of a grouping. -/
def sumLen (gs : List (String × List AWSResource)) : Nat :=
  (gs.map (fun g => g.2.length)).sum

/-! ### Node derivation -/

/-- Plane position of a node. -/
structure NodePos where
  x : ℝ
  y : ℝ

/-- Derived node: resource id, display payload and position. The display
field records the name-or-id fallback of the node label markup. -/
structure NodeRM where
  id : String
  display : String
  typeLabel : String
  regionLabel : String
  pos : NodePos
  background : String

namespace RM

/-- Service color table of ResourceMap.tsx (lines 68-80). -/
def serviceColors : String → Option String
  | "EC2" => some "#FFD700"
  | "ELB" => some "#98FB98"
  | "RDS" => some "#87CEEB"
  | "S3" => some "#DDA0DD"
  | "Route 53" => some "#F0E68C"
  | "ACM" => some "#E6E6FA"
  | "IAM" => some "#FFB6C1"
  | "ECS" => some "#98FB98"
  | "WAF" => some "#FF69B4"
  | "Security Groups" => some "#FFA07A"
  | "CloudFront" => some "#FFB6C1"
  | _ => none

/-- createNodeObject of ResourceMap.tsx (lines 350-375): id, label parts
with the name-or-id fallback, position and service color background. -/
def createNodeObject (r : AWSResource) (x y : ℝ) : NodeRM :=
  { id := r.id
    display := if r.name = "" then r.id else r.name
    typeLabel := r.type
    regionLabel := r.region
    pos := ⟨x, y⟩
    background := (serviceColors r.serviceType).getD "white" }

/-- Column count of a square-ish service grid: the least w with n at
most w * w, the value of Math.ceil(Math.sqrt(n)). -/
def sqrtCeil (n : Nat) : Nat :=
  (((List.range (n + 1)).find? (fun w => decide (n ≤ w * w))).getD n)

/-- Grid placement of one service group of the regional layout: resource
number i sits in column i mod w and row i div w of a w-column grid. -/
def serviceBlockGo (vs hs cx cy w : Nat) : Nat → List AWSResource → List NodeRM
  | _, [] => []
  | i, r :: rest =>
      createNodeObject r (↑(cx + (i % w) * (160 + hs))) (↑(cy + (i / w) * vs)) ::
        serviceBlockGo vs hs cx cy w (i + 1) rest

/-- Nodes of one service group, using the ceil-sqrt column count. -/
def serviceBlock (vs hs cx cy : Nat) (srs : List AWSResource) : List NodeRM :=
  serviceBlockGo vs hs cx cy (sqrtCeil srs.length) 0 srs

/-- Horizontal cursor walk over the service groups of one region: each
group advances the cursor by its grid width plus the group spacing. -/
def serviceBlocksGo (vs hs cy : Nat) : Nat → List (String × List AWSResource) → List NodeRM
  | _, [] => []
  | cx, g :: gs =>
      serviceBlock vs hs cx cy g.2 ++
        serviceBlocksGo vs hs cy (cx + sqrtCeil g.2.length * (160 + hs) + 100) gs

/-- Vertical cursor walk over the region groups: every region advances
the running vertical cursor by the fixed 300 pixel region spacing. -/
def regionalGo (vs hs : Nat) : Nat → List (String × List AWSResource) → List NodeRM
  | _, [] => []
  | cy, g :: gs =>
      serviceBlocksGo vs hs cy 0 (groupByKey (fun r => r.serviceType) g.2) ++
        regionalGo vs hs (cy + 300) gs

/-- Regional branch of createNodes (lines 254-295): group by region,
inside each region group by service family, lay each service group out
as a grid, advance cursors. -/
def regionalNodes (vs hs : Nat) (rs : List AWSResource) : List NodeRM :=
  regionalGo vs hs 0 (groupByKey (fun r => r.region) rs)

/-- Circular branch of createNodes (lines 333-345): all resources on a
circle of radius max(50 n, 400) at angle steps of two pi over n. -/
noncomputable def circularGo (radius step : ℝ) : Nat → List AWSResource → List NodeRM
  | _, [] => []
  | i, r :: rest =>
      createNodeObject r (radius * Real.cos (↑i * step)) (radius * Real.sin (↑i * step)) ::
        circularGo radius step (i + 1) rest

/-- Circular layout over a whole resource list. -/
noncomputable def circularNodes (rs : List AWSResource) : List NodeRM :=
  circularGo (max (↑rs.length * 50) 400) (2 * Real.pi / ↑rs.length) 0 rs

/-- createNodes of ResourceMap.tsx (lines 234-348). The layered and the
grouped branches evaluate Object.entries(serviceGroups) although the
serviceGroups binding only exists inside the regional branch (lines
269-275); entering either branch therefore raises a ReferenceError,
modelled as the error value of this function. -/
noncomputable def createNodes (ls : LayoutSettings) (rs : List AWSResource) :
    Except String (List NodeRM) :=
  match ls.hierarchyType with
  | .regional => .ok (regionalNodes ls.verticalSpacing ls.horizontalSpacing rs)
  | .layered => .error "ReferenceError: serviceGroups is not defined"
  | .grouped => .error "ReferenceError: serviceGroups is not defined"
  | .circular => .ok (circularNodes rs)

/-! ### Edge derivation of ResourceMap.tsx -/

/-- One pending edge of the ResourceMap.tsx builder before id
allocation: base id string, endpoints, label and default stroke. -/
structure Emission where
  base : String
  source : String
  target : String
  label : String
  color : String
deriving DecidableEq

/-- Edge emissions of one resource, transcribing the rule blocks of
createEdges (lines 392-701) in source order. All rules sit inside one
test for the presence of the relationships record, read only fields of
the resource itself, and do not read the build state, so the pending
edges of a resource are a pure function of the resource. -/
def emissions (r : AWSResource) : List Emission :=
  match r.relationships with
  | none => []
  | some rel =>
      (if r.serviceType = "Route 53" then
        optList rel.loadBalancer (fun lb =>
          ⟨"route53-alb-" ++ r.id ++ "-" ++ lb, r.id, lb, "ALB Record", "#F0E68C"⟩) ++
        optList rel.cloudfront (fun cf =>
          ⟨"route53-cf-" ++ r.id ++ "-" ++ cf, r.id, cf, "CloudFront Record", "#F0E68C"⟩) ++
        optList rel.bucket (fun b =>
          ⟨"route53-s3-" ++ r.id ++ "-" ++ b, r.id, b, "S3 Record", "#F0E68C"⟩) ++
        optList rel.hostedZone (fun hz =>
          ⟨"route53-hz-" ++ r.id ++ "-" ++ hz, r.id, hz, "Hosted Zone", "#F0E68C"⟩)
      else []) ++
      listList rel.dnsRecords (fun rec =>
        ⟨"dns-" ++ r.id ++ "-" ++ rec, rec, r.id, "DNS Record", "#F0E68C"⟩) ++
      listList rel.aliases (fun al =>
        ⟨"alias-" ++ r.id ++ "-" ++ al, r.id, al, "Alias", "#F0E68C"⟩) ++
      listList rel.securityGroups (fun sg =>
        ⟨r.id ++ "-" ++ sg, r.id, sg, "Security Group", "#94a3b8"⟩) ++
      listList rel.targetGroups (fun tg =>
        ⟨r.id ++ "-" ++ tg, r.id, tg, "Target Group", "#94a3b8"⟩) ++
      optList rel.loadBalancer (fun lb =>
        ⟨r.id ++ "-" ++ lb, r.id, lb, "Load Balancer", "#94a3b8"⟩) ++
      optList rel.certificate (fun c =>
        ⟨r.id ++ "-" ++ c, r.id, c, "Certificate", "#94a3b8"⟩) ++
      listList rel.instances (fun inst =>
        ⟨r.id ++ "-" ++ inst, r.id, inst, "Instance", "#94a3b8"⟩) ++
      listList rel.volumes (fun v =>
        ⟨r.id ++ "-" ++ v, r.id, v, "Volume", "#94a3b8"⟩) ++
      optList rel.cloudfront (fun cf =>
        ⟨r.id ++ "-" ++ cf, r.id, cf, "CloudFront", "#94a3b8"⟩) ++
      optList rel.repository (fun rep =>
        ⟨r.id ++ "-" ++ rep, r.id, rep, "Container Repository", "#94a3b8"⟩) ++
      optList rel.origin (fun og =>
        ⟨r.id ++ "-" ++ og, r.id, og, "Origin", "#94a3b8"⟩) ++
      optList rel.wafAcl (fun acl =>
        ⟨r.id ++ "-" ++ acl, r.id, acl, "WAF ACL", "#94a3b8"⟩) ++
      listList rel.wafRules (fun rule =>
        ⟨r.id ++ "-" ++ rule, r.id, rule, "WAF Rule", "#94a3b8"⟩) ++
      listList rel.wafAssociations (fun t =>
        ⟨r.id ++ "-" ++ t, r.id, t, "Protects", "#94a3b8"⟩) ++
      optList rel.protectedBy (fun pb =>
        ⟨pb ++ "-" ++ r.id, pb, r.id, "Protected By", "#94a3b8"⟩) ++
      (if r.serviceType = "WAF" then
        listList rel.wafAssociations (fun t =>
          ⟨"waf-" ++ r.id ++ "-" ++ t, r.id, t, "Protects", "#FF69B4"⟩) ++
        listList rel.wafRules (fun rule =>
          ⟨"waf-rule-" ++ r.id ++ "-" ++ rule, r.id, rule, "WAF Rule", "#FF69B4"⟩)
      else []) ++
      optList rel.protectedBy (fun pb =>
        ⟨"protected-" ++ pb ++ "-" ++ r.id, pb, r.id, "Protected By WAF", "#FF69B4"⟩)

/-- Suffix loop of createUniqueEdgeId: try base-counter, base-(counter+1)
and so on while the candidate is already used. The fuel bounds the loop;
one more candidate than there are used keys always suffices. -/
def freshIdAux (used : List String) (base : String) : Nat → Nat → String
  | counter, 0 => base ++ "-" ++ natToString counter
  | counter, fuel + 1 =>
      let cand := base ++ "-" ++ natToString counter
      if cand ∈ used then freshIdAux used base (counter + 1) fuel else cand

/-- createUniqueEdgeId of ResourceMap.tsx (lines 381-390): return the
base id when unused, otherwise append -1, -2, ... until unused. -/
def createUniqueEdgeId (used : List String) (base : String) : String :=
  if base ∈ used then freshIdAux used base 1 used.length else base

/-- Emit one edge: allocate a unique id from the base, push the edge
with the highlight stroke when the id is the selected one, and record
the id as used. -/
def pushEdge (sel : Option String) (st : EdgeState) (em : Emission) : EdgeState :=
  let id := createUniqueEdgeId st.used em.base
  { edges := st.edges ++
      [⟨id, em.source, em.target, em.label, if sel = some id then "#60a5fa" else em.color⟩]
    used := st.used ++ [id] }

/-- createEdges of ResourceMap.tsx (lines 377-704): walk the resources,
apply every rule in order, allocating each edge id against the running
usedKeys set. Because the rule guards and payloads never read the build
state, the walk is the fold of the edge emitter over the concatenated
per-resource emissions. -/
def createEdges (sel : Option String) (rs : List AWSResource) : List Edge :=
  ((rs.flatMap emissions).foldl (pushEdge sel) ⟨[], []⟩).edges

end RM

namespace V1

/-- Service color table of the part_004 component (lines 41-50). -/
def serviceColors : String → Option String
  | "EC2" => some "#FFD700"
  | "ELB" => some "#98FB98"
  | "RDS" => some "#87CEEB"
  | "S3" => some "#DDA0DD"
  | "Route 53" => some "#F0E68C"
  | "ACM" => some "#E6E6FA"
  | "IAM" => some "#FFB6C1"
  | "ECS" => some "#98FB98"
  | _ => none

/-- Node payload of the part_004 createNodes (lines 106-133), with the
same name-or-id display fallback as ResourceMap.tsx. -/
def mkNodeObject (r : AWSResource) (x y : ℝ) : NodeRM :=
  { id := r.id
    display := if r.name = "" then r.id else r.name
    typeLabel := r.type
    regionLabel := r.region
    pos := ⟨x, y⟩
    background := (serviceColors r.serviceType).getD "white" }

/-- Hierarchy tier table of part_004 (lines 72-84). -/
def hierarchyLevels : String → Option Nat
  | "Route 53" => some 0
  | "ACM" => some 1
  | "ELB" => some 2
  | "EC2" => some 3
  | "ECS" => some 3
  | "Lambda" => some 3
  | "ECR" => some 4
  | "RDS" => some 4
  | "S3" => some 4
  | "IAM" => some 5
  | "EventBridge" => some 5
  | _ => none

/-- Row of one service tier: nodes spaced 350 apart from the centering
start abscissa, all on the tier ordinate. -/
def layeredRowGo (startX y : ℝ) : Nat → List AWSResource → List NodeRM
  | _, [] => []
  | i, r :: rest => mkNodeObject r (startX + ↑i * (200 + 150)) y :: layeredRowGo startX y (i + 1) rest

/-- Nodes of one service group of the part_004 layered layout: tier from
the hierarchy table with fallback tier 0, row centered on zero. -/
noncomputable def layeredRow (g : String × List AWSResource) : List NodeRM :=
  let level := (hierarchyLevels g.1).getD 0
  let y : ℝ := ↑level * 200
  let totalWidth : ℝ := ↑g.2.length * (200 + 150) - 150
  layeredRowGo (-(totalWidth / 2)) y 0 g.2

/-- createNodes of part_004 (lines 64-138): group by service family and
lay each group out on its hierarchy tier. -/
noncomputable def createNodes (rs : List AWSResource) : List NodeRM :=
  (groupByKey (fun r => r.serviceType) rs).flatMap layeredRow

/-- One pending edge of the part_004 builder: the id is fixed by the
rule (no allocator); checked records whether the rule tests the
addedEdges set before pushing. -/
structure EmissionV1 where
  id : String
  source : String
  target : String
  label : String
  checked : Bool
deriving DecidableEq

/-- Route 53 record to load balancer match (lines 232-241): an
Application Load Balancer matches when one of its dnsRecords entries,
after dropping a trailing dot on both sides, equals the record name or
extends it by subdomain labels in either direction. -/
def dnsMatch (c r : AWSResource) : Bool :=
  (relList c (fun rel => rel.dnsRecords)).any (fun dns =>
    let cleanDns := stripTrailingDot dns
    let cleanRecordName := stripTrailingDot r.name
    cleanRecordName == cleanDns ||
      jsEndsWith cleanRecordName ("." ++ cleanDns) ||
      jsEndsWith cleanDns ("." ++ cleanRecordName))

/-- Security group rule (lines 200-214). -/
def emSG (r : AWSResource) : List EmissionV1 :=
  (relList r (fun rel => rel.securityGroups)).map (fun sg =>
    ⟨r.id ++ "-" ++ sg ++ "-sg", r.id, sg, "Security Group", true⟩)

/-- Target group rule (lines 217-227), pushed without a set test. -/
def emTG (r : AWSResource) : List EmissionV1 :=
  if r.type = "Target Group" then
    optList (relOpt r (fun rel => rel.loadBalancer)) (fun lb =>
      ⟨lb ++ "-" ++ r.id ++ "-tg", lb, r.id, "Target Group", false⟩)
  else []

/-- DNS alias rule (lines 230-256). -/
def emDNS (rs : List AWSResource) (r : AWSResource) : List EmissionV1 :=
  if r.type = "Route 53 Record" then
    (rs.filter (fun c => c.type == "Application Load Balancer" && dnsMatch c r)).map
      (fun lb => ⟨r.id ++ "-" ++ lb.id ++ "-dns", r.id, lb.id, "DNS Alias", true⟩)
  else []

/-- Hosted zone rule (lines 259-278). -/
def emZone (rs : List AWSResource) (r : AWSResource) : List EmissionV1 :=
  if r.type = "Route 53 Record" then
    match rs.find? (fun c => c.type == "Route 53 Hosted Zone" && jsStartsWith r.id c.id) with
    | some hz => [⟨hz.id ++ "-" ++ r.id ++ "-zone", hz.id, r.id, "Record", true⟩]
    | none => []
  else []

/-- Certificate rule (lines 281-291), pushed without a set test. -/
def emCert (r : AWSResource) : List EmissionV1 :=
  if r.type = "ACM Certificate" then
    optList (relOpt r (fun rel => rel.loadBalancer)) (fun lb =>
      ⟨r.id ++ "-" ++ lb ++ "-cert", r.id, lb, "SSL/TLS", false⟩)
  else []

/-- Volume rule (lines 294-306), pushed without a set test. -/
def emVol (r : AWSResource) : List EmissionV1 :=
  (relList r (fun rel => rel.volumes)).map (fun v =>
    ⟨r.id ++ "-" ++ v ++ "-vol", r.id, v, "Volume", false⟩)

/-- Internet gateway to load balancer rule (lines 309-329). -/
def emIgwAlb (rs : List AWSResource) (r : AWSResource) : List EmissionV1 :=
  if r.type = "Application Load Balancer" then
    match rs.find? (fun c => c.type == "Internet Gateway" && c.region == r.region) with
    | some igw => [⟨igw.id ++ "-" ++ r.id ++ "-igw", igw.id, r.id, "Internet Access", true⟩]
    | none => []
  else []

/-- NAT gateway to load balancer rule (lines 332-352). -/
def emNatAlb (rs : List AWSResource) (r : AWSResource) : List EmissionV1 :=
  if r.type = "NAT Gateway" then
    (rs.filter (fun c => c.type == "Application Load Balancer" && c.region == r.region)).map
      (fun lb => ⟨r.id ++ "-" ++ lb.id ++ "-nat", r.id, lb.id, "NAT Access", true⟩)
  else []

/-- Internet gateway to NAT gateway rule (lines 355-374). -/
def emIgwNat (rs : List AWSResource) (r : AWSResource) : List EmissionV1 :=
  if r.type = "NAT Gateway" then
    match rs.find? (fun c => c.type == "Internet Gateway" && c.region == r.region) with
    | some igw =>
        [⟨igw.id ++ "-" ++ r.id ++ "-igw-nat", igw.id, r.id, "Internet Access", true⟩]
    | none => []
  else []

/-- ECS service to target group rule (lines 377-396). -/
def emEcsTg (rs : List AWSResource) (r : AWSResource) : List EmissionV1 :=
  if r.type = "ECS Service" then
    (rs.filter (fun c => c.type == "Target Group" && c.region == r.region)).map
      (fun tg => ⟨r.id ++ "-" ++ tg.id ++ "-tg", r.id, tg.id, "Service Registration", true⟩)
  else []

/-- EventBridge rule to Lambda rule (lines 399-418). -/
def emEvent (rs : List AWSResource) (r : AWSResource) : List EmissionV1 :=
  if r.type = "EventBridge Rule" then
    (rs.filter (fun c => c.type == "Lambda Function" && c.region == r.region)).map
      (fun lam => ⟨r.id ++ "-" ++ lam.id ++ "-event", r.id, lam.id, "Trigger", true⟩)
  else []

/-- ECS service to cluster rule (lines 421-440). -/
def emCluster (rs : List AWSResource) (r : AWSResource) : List EmissionV1 :=
  if r.type = "ECS Service" then
    match rs.find? (fun c => c.type == "ECS Cluster" && jsIncludes r.id c.id) with
    | some cl => [⟨cl.id ++ "-" ++ r.id ++ "-cluster", cl.id, r.id, "Service", true⟩]
    | none => []
  else []

/-- API gateway to Lambda rule (lines 443-462). -/
def emApi (rs : List AWSResource) (r : AWSResource) : List EmissionV1 :=
  if r.type = "Lambda Function" then
    (rs.filter (fun c => c.type == "API Gateway" && c.region == r.region)).map
      (fun api => ⟨api.id ++ "-" ++ r.id ++ "-api", api.id, r.id, "Integration", true⟩)
  else []

/-- Edge emissions of one resource of the part_004 createEdges, rule
blocks in source order. The guards and payloads read the resource and
the full resource list but never the build state. -/
def emissions (rs : List AWSResource) (r : AWSResource) : List EmissionV1 :=
  emSG r ++ emTG r ++ emDNS rs r ++ emZone rs r ++ emCert r ++ emVol r ++
    emIgwAlb rs r ++ emNatAlb rs r ++ emIgwNat rs r ++ emEcsTg rs r ++
    emEvent rs r ++ emCluster rs r ++ emApi rs r

/-- Emit one edge of the part_004 builder: skip when the rule tests the
addedEdges set and the id is already there, otherwise push the edge with
the createEdgeWithSelection stroke and record the id. -/
def pushEdgeV1 (sel : Option String) (st : EdgeState) (em : EmissionV1) : EdgeState :=
  if em.checked && decide (em.id ∈ st.used) then st
  else
    { edges := st.edges ++
        [⟨em.id, em.source, em.target, em.label,
          if sel = some em.id then "#ef4444" else "#94a3b8"⟩]
      used := st.used ++ [em.id] }

/-- createEdges of part_004 (lines 167-466). -/
def createEdges (sel : Option String) (rs : List AWSResource) : List Edge :=
  ((rs.flatMap (emissions rs)).foldl (pushEdgeV1 sel) ⟨[], []⟩).edges

end V1

namespace RM

/-- Greatest row index a service grid of the given size reaches: the
rows run from 0 to (n - 1) div ceil-sqrt n. -/
def maxRow (n : Nat) : Nat := (n - 1) / sqrtCeil n

/-- Every service bucket of every region group of the regional layout. -/
def serviceBucketsAll (rs : List AWSResource) : List (List AWSResource) :=
  (groupByKey (fun r => r.region) rs).flatMap
    (fun g => (groupByKey (fun r => r.serviceType) g.2).map Prod.snd)

/-- Placement rank of a region: its index in the first-occurrence order
of the regional grouping, the order the vertical cursor walks. -/
def regionIdx (rs : List AWSResource) (reg : String) : Nat :=
  ((groupByKey (fun r => r.region) rs).map Prod.fst).indexOf reg

end RM

/-! ### Concrete sample inputs used by the scenario theorems -/

/-- Route 53 record named with a trailing dot (DNS alias scenario). -/
def recSample : AWSResource :=
  { type := "Route 53 Record", serviceType := "Route 53",
    name := "api.example.com.", id := "rec-1", region := "us-east-1" }

/-- Application load balancer carrying the matching dnsRecords entry. -/
def albSample : AWSResource :=
  { type := "Application Load Balancer", serviceType := "ELB", name := "alb",
    id := "alb-1", region := "us-east-1",
    relationships := some { dnsRecords := some ["api.example.com"] } }

/-- Route 53 service resource with a loadBalancer relationship, the
input on which both the Route 53 rule and the generic load balancer rule
of ResourceMap.tsx fire. -/
def r53Sample : AWSResource :=
  { type := "Route 53 Record", serviceType := "Route 53", id := "r53",
    region := "us-east-1", relationships := some { loadBalancer := some "lb-1" } }

/-- Resource with no relationships record and an empty name. -/
def plainSample : AWSResource :=
  { type := "EC2 Instance", serviceType := "EC2", id := "i-1", region := "us-east-1" }

/-- Resource holding exactly the two security group references. -/
def sgSample : AWSResource :=
  { type := "EC2 Instance", serviceType := "EC2", name := "web", id := "i-9",
    region := "us-east-1",
    relationships := some { securityGroups := some ["sg-1", "sg-2"] } }

/-- Standalone security group resource sg-1. -/
def sgNode1 : AWSResource :=
  { type := "Security Group", serviceType := "Security Groups", id := "sg-1",
    region := "us-east-1" }

/-- Standalone security group resource sg-2. -/
def sgNode2 : AWSResource :=
  { type := "Security Group", serviceType := "Security Groups", id := "sg-2",
    region := "us-east-1" }

/-- First resource of the two-row region ra. -/
def regA1 : AWSResource :=
  { type := "EC2 Instance", serviceType := "EC2", id := "a1", region := "ra" }

/-- Second resource of the two-row region ra. -/
def regA2 : AWSResource :=
  { type := "EC2 Instance", serviceType := "EC2", id := "a2", region := "ra" }

/-- Third resource of the two-row region ra: with two grid columns it
lands on the second row of the region. -/
def regA3 : AWSResource :=
  { type := "EC2 Instance", serviceType := "EC2", id := "a3", region := "ra" }

/-- Sole resource of region rb, placed after region ra. -/
def regB1 : AWSResource :=
  { type := "EC2 Instance", serviceType := "EC2", id := "b1", region := "rb" }

end AwsMap

namespace AwsMap

/-! ### Decimal rendering is injective -/

theorem digitChar_toNat (d : Nat) (hd : d < 10) : (digitChar d).toNat = 48 + d := by
  interval_cases d <;> decide

theorem decodeDigits_append_one (cs : List Char) (c : Char) :
    decodeDigits (cs ++ [c]) = decodeDigits cs * 10 + (c.toNat - 48) := by
  simp [decodeDigits, List.foldl_append]

theorem decode_natToStringAux :
    ∀ fuel n, n < fuel → decodeDigits (natToStringAux fuel n) = n := by
  intro fuel
  induction fuel with
  | zero => intro n h; omega
  | succ fuel ih =>
      intro n h
      by_cases h10 : n < 10
      · simp only [natToStringAux, h10, if_true]
        simp [decodeDigits, digitChar_toNat n h10]
      · have hlt : n / 10 < n := Nat.div_lt_self (by omega) (by omega)
        have hn10 : n / 10 < fuel := by omega
        simp only [natToStringAux, h10, if_false]
        rw [decodeDigits_append_one, ih _ hn10,
          digitChar_toNat _ (Nat.mod_lt n (by omega))]
        omega

theorem natToString_injective : Function.Injective natToString := by
  intro m n h
  have hd : natToStringAux (m + 1) m = natToStringAux (n + 1) n := congrArg String.data h
  have h1 : decodeDigits (natToStringAux (m + 1) m) = m :=
    decode_natToStringAux _ _ (by omega)
  have h2 : decodeDigits (natToStringAux (n + 1) n) = n :=
    decode_natToStringAux _ _ (by omega)
  rw [hd, h2] at h1
  exact h1.symm

theorem candidate_ne (base : String) {j k : Nat} (h : j ≠ k) :
    base ++ "-" ++ natToString j ≠ base ++ "-" ++ natToString k := by
  intro he
  apply h
  apply natToString_injective
  have hdata := congrArg String.data he
  rw [String.data_append, String.data_append, String.data_append,
    String.data_append] at hdata
  exact String.ext (List.append_cancel_left hdata)

/-! ### The edge-id allocator returns a fresh id -/

theorem exists_unused_candidate (used : List String) (base : String) :
    ∃ k, 1 ≤ k ∧ k ≤ 1 + used.length ∧ base ++ "-" ++ natToString k ∉ used := by
  by_contra hall
  push_neg at hall
  have hinj : Set.InjOn (fun k => base ++ "-" ++ natToString k)
      ↑(Finset.Icc 1 (1 + used.length)) := by
    intro a _ b _ hab
    by_contra hne
    exact candidate_ne base hne hab
  have hmaps : ∀ k ∈ Finset.Icc 1 (1 + used.length),
      (fun k => base ++ "-" ++ natToString k) k ∈ used.toFinset := by
    intro k hk
    rw [List.mem_toFinset]
    rcases Finset.mem_Icc.mp hk with ⟨hk1, hk2⟩
    exact hall k hk1 hk2
  have hcard := Finset.card_le_card_of_injOn _ hmaps hinj
  rw [Nat.card_Icc] at hcard
  have := List.toFinset_card_le used
  omega

theorem freshIdAux_not_mem (used : List String) (base : String) :
    ∀ fuel counter,
      (∃ k, counter ≤ k ∧ k ≤ counter + fuel ∧ base ++ "-" ++ natToString k ∉ used) →
      RM.freshIdAux used base counter fuel ∉ used := by
  intro fuel
  induction fuel with
  | zero =>
      rintro counter ⟨k, h1, h2, h3⟩
      have hk : k = counter := by omega
      subst hk
      simpa [RM.freshIdAux] using h3
  | succ fuel ih =>
      rintro counter ⟨k, h1, h2, h3⟩
      by_cases hc : base ++ "-" ++ natToString counter ∈ used
      · simp only [RM.freshIdAux, hc, if_true]
        apply ih
        have hkc : counter ≠ k := by
          intro he
          subst he
          exact h3 hc
        exact ⟨k, by omega, by omega, h3⟩
      · simp [RM.freshIdAux, hc]

theorem createUniqueEdgeId_not_mem (used : List String) (base : String) :
    RM.createUniqueEdgeId used base ∉ used := by
  unfold RM.createUniqueEdgeId
  by_cases hb : base ∈ used
  · simp only [hb, if_true]
    apply freshIdAux_not_mem
    obtain ⟨k, h1, h2, h3⟩ := exists_unused_candidate used base
    exact ⟨k, h1, by omega, h3⟩
  · simp [hb]

/-! ### Grouping lemmas -/

theorem sumLen_insertGrouped (k : String) (r : AWSResource) :
    ∀ gs, sumLen (insertGrouped k r gs) = sumLen gs + 1 := by
  intro gs
  induction gs with
  | nil => simp [insertGrouped, sumLen]
  | cons g gs ih =>
      by_cases h : g.1 = k <;>
        simp [insertGrouped, h, sumLen] at ih ⊢ <;> omega

theorem sumLen_foldl (key : AWSResource → String) (rs : List AWSResource) :
    ∀ acc, sumLen (rs.foldl (fun a r => insertGrouped (key r) r a) acc) =
      sumLen acc + rs.length := by
  induction rs with
  | nil => intro acc; simp
  | cons r rs ih =>
      intro acc
      simp only [List.foldl_cons, List.length_cons]
      rw [ih, sumLen_insertGrouped]
      omega

theorem sumLen_groupByKey (key : AWSResource → String) (rs : List AWSResource) :
    sumLen (groupByKey key rs) = rs.length := by
  have h := sumLen_foldl key rs []
  simpa [groupByKey, sumLen] using h

theorem insertGrouped_cons_pos (k : String) (r : AWSResource)
    (g0 : String × List AWSResource) (gs : List (String × List AWSResource))
    (h : g0.1 = k) :
    insertGrouped k r (g0 :: gs) = (g0.1, g0.2 ++ [r]) :: gs := by
  simp [insertGrouped, h]

theorem insertGrouped_cons_neg (k : String) (r : AWSResource)
    (g0 : String × List AWSResource) (gs : List (String × List AWSResource))
    (h : ¬ g0.1 = k) :
    insertGrouped k r (g0 :: gs) = g0 :: insertGrouped k r gs := by
  simp [insertGrouped, h]

theorem insertGrouped_keyEq (key : AWSResource → String) (r : AWSResource) :
    ∀ gs, (∀ g ∈ gs, ∀ x ∈ g.2, key x = g.1) →
      ∀ g ∈ insertGrouped (key r) r gs, ∀ x ∈ g.2, key x = g.1 := by
  intro gs
  induction gs with
  | nil =>
      intro _ g hg x hx
      simp only [insertGrouped, List.mem_singleton] at hg
      subst hg
      rcases List.mem_singleton.mp hx with hx
      subst hx
      rfl
  | cons g0 gs ih =>
      intro hQ g hg x hx
      by_cases h : g0.1 = key r
      · rw [insertGrouped_cons_pos _ _ _ _ h] at hg
        rcases List.mem_cons.mp hg with hg | hg
        · subst hg
          rcases List.mem_append.mp hx with hx | hx
          · exact hQ g0 (List.mem_cons_self g0 gs) x hx
          · rcases List.mem_singleton.mp hx with hx
            subst hx
            exact h.symm
        · exact hQ g (List.mem_cons_of_mem g0 hg) x hx
      · rw [insertGrouped_cons_neg _ _ _ _ h] at hg
        rcases List.mem_cons.mp hg with hg | hg
        · rw [hg] at hx ⊢
          exact hQ g0 (List.mem_cons_self g0 gs) x hx
        · exact ih (fun g1 hg1 => hQ g1 (List.mem_cons_of_mem g0 hg1)) g hg x hx

theorem insertGrouped_subset (k : String) (r : AWSResource) :
    ∀ gs g, g ∈ insertGrouped k r gs → ∀ x ∈ g.2,
      (∃ g0 ∈ gs, x ∈ g0.2) ∨ x = r := by
  intro gs
  induction gs with
  | nil =>
      intro g hg x hx
      simp only [insertGrouped, List.mem_singleton] at hg
      subst hg
      exact Or.inr (List.mem_singleton.mp hx)
  | cons g0 gs ih =>
      intro g hg x hx
      by_cases h : g0.1 = k
      · rw [insertGrouped_cons_pos _ _ _ _ h] at hg
        rcases List.mem_cons.mp hg with hg | hg
        · subst hg
          rcases List.mem_append.mp hx with hx | hx
          · exact Or.inl ⟨g0, List.mem_cons_self g0 gs, hx⟩
          · exact Or.inr (List.mem_singleton.mp hx)
        · exact Or.inl ⟨g, List.mem_cons_of_mem g0 hg, hx⟩
      · rw [insertGrouped_cons_neg _ _ _ _ h] at hg
        rcases List.mem_cons.mp hg with hg | hg
        · exact Or.inl ⟨g0, List.mem_cons_self g0 gs, hg ▸ hx⟩
        · rcases ih g hg x hx with ⟨g0m, hg0, hxg0⟩ | hx
          · exact Or.inl ⟨g0m, List.mem_cons_of_mem g0 hg0, hxg0⟩
          · exact Or.inr hx

theorem groupByKey_forall (key : AWSResource → String) (P : AWSResource → Prop)
    (rs : List AWSResource) (hP : ∀ r ∈ rs, P r) :
    ∀ g ∈ groupByKey key rs, ∀ x ∈ g.2, P x := by
  suffices h : ∀ (ls : List AWSResource) acc, (∀ g ∈ acc, ∀ x ∈ g.2, P x) →
      (∀ r ∈ ls, P r) →
      ∀ g ∈ ls.foldl (fun a r => insertGrouped (key r) r a) acc, ∀ x ∈ g.2, P x by
    exact h rs [] (by simp) hP
  intro ls
  induction ls with
  | nil => intro acc hacc _ g hg; exact hacc g hg
  | cons a as ih =>
      intro acc hacc hls g hg
      refine ih (insertGrouped (key a) a acc) ?_
        (fun x hx => hls x (List.mem_cons_of_mem a hx)) g hg
      intro g1 hg1 x hx
      rcases insertGrouped_subset (key a) a acc g1 hg1 x hx with ⟨g0, hg0, hxg0⟩ | hx
      · exact hacc g0 hg0 x hxg0
      · rw [hx]
        exact hls a (List.mem_cons_self a as)

theorem groupByKey_keyEq (key : AWSResource → String) (rs : List AWSResource) :
    ∀ g ∈ groupByKey key rs, ∀ x ∈ g.2, key x = g.1 := by
  suffices h : ∀ (ls : List AWSResource) acc, (∀ g ∈ acc, ∀ x ∈ g.2, key x = g.1) →
      ∀ g ∈ ls.foldl (fun a r => insertGrouped (key r) r a) acc,
        ∀ x ∈ g.2, key x = g.1 by
    exact h rs [] (by simp)
  intro ls
  induction ls with
  | nil => intro acc hacc g hg; exact hacc g hg
  | cons a as ih =>
      intro acc hacc g hg
      exact ih (insertGrouped (key a) a acc) (insertGrouped_keyEq key a acc hacc) g hg

theorem insertGrouped_keysShape (k : String) (r : AWSResource) :
    ∀ gs, (insertGrouped k r gs).map Prod.fst =
      if k ∈ gs.map Prod.fst then gs.map Prod.fst else gs.map Prod.fst ++ [k] := by
  intro gs
  induction gs with
  | nil => simp [insertGrouped]
  | cons g0 gs ih =>
      by_cases h : g0.1 = k
      · simp [insertGrouped, h]
      · have hne : ¬ k = g0.1 := fun he => h he.symm
        by_cases hm : k ∈ gs.map Prod.fst <;>
          simp [insertGrouped, h, ih, hm, hne]

theorem groupByKey_keys_nodup (key : AWSResource → String) (rs : List AWSResource) :
    ((groupByKey key rs).map Prod.fst).Nodup := by
  suffices h : ∀ (ls : List AWSResource) acc, (acc.map Prod.fst).Nodup →
      ((ls.foldl (fun a r => insertGrouped (key r) r a) acc).map Prod.fst).Nodup by
    exact h rs [] (by simp)
  intro ls
  induction ls with
  | nil => intro acc hacc; exact hacc
  | cons a as ih =>
      intro acc hacc
      refine ih _ ?_
      rw [insertGrouped_keysShape]
      by_cases hm : key a ∈ acc.map Prod.fst
      · simpa [hm] using hacc
      · simp only [hm, if_false]
        rw [List.nodup_append]
        refine ⟨hacc, by simp, ?_⟩
        intro b hb hbk
        rcases List.mem_singleton.mp hbk with hbk
        subst hbk
        exact hm hb

end AwsMap

namespace AwsMap

/-! ### Layout size lemmas -/

theorem serviceBlockGo_length (vs hs cx cy w : Nat) :
    ∀ (srs : List AWSResource) (i : Nat),
      (RM.serviceBlockGo vs hs cx cy w i srs).length = srs.length := by
  intro srs
  induction srs with
  | nil => intro i; rfl
  | cons r rest ih => intro i; simp [RM.serviceBlockGo, ih]

theorem serviceBlock_length (vs hs cx cy : Nat) (srs : List AWSResource) :
    (RM.serviceBlock vs hs cx cy srs).length = srs.length :=
  serviceBlockGo_length vs hs cx cy _ srs 0

theorem serviceBlocksGo_length (vs hs cy : Nat) :
    ∀ (gs : List (String × List AWSResource)) (cx : Nat),
      (RM.serviceBlocksGo vs hs cy cx gs).length = sumLen gs := by
  intro gs
  induction gs with
  | nil => intro cx; rfl
  | cons g gs ih =>
      intro cx
      simp [RM.serviceBlocksGo, serviceBlock_length, ih, sumLen]

theorem regionalGo_length (vs hs : Nat) :
    ∀ (gs : List (String × List AWSResource)) (cy : Nat),
      (RM.regionalGo vs hs cy gs).length = sumLen gs := by
  intro gs
  induction gs with
  | nil => intro cy; rfl
  | cons g gs ih =>
      intro cy
      have hsl := sumLen_groupByKey (fun r => r.serviceType) g.2
      simp only [sumLen] at hsl
      simp [RM.regionalGo, serviceBlocksGo_length, ih, sumLen, hsl]

theorem regionalNodes_length (vs hs : Nat) (rs : List AWSResource) :
    (RM.regionalNodes vs hs rs).length = rs.length := by
  rw [RM.regionalNodes, regionalGo_length, sumLen_groupByKey]

theorem circularGo_length (radius step : ℝ) :
    ∀ (srs : List AWSResource) (i : Nat),
      (RM.circularGo radius step i srs).length = srs.length := by
  intro srs
  induction srs with
  | nil => intro i; rfl
  | cons r rest ih => intro i; simp [RM.circularGo, ih]

theorem circularNodes_length (rs : List AWSResource) :
    (RM.circularNodes rs).length = rs.length := by
  rw [RM.circularNodes, circularGo_length]

theorem layeredRowGo_length (startX y : ℝ) :
    ∀ (srs : List AWSResource) (i : Nat),
      (V1.layeredRowGo startX y i srs).length = srs.length := by
  intro srs
  induction srs with
  | nil => intro i; rfl
  | cons r rest ih => intro i; simp [V1.layeredRowGo, ih]

theorem layeredRow_length (g : String × List AWSResource) :
    (V1.layeredRow g).length = g.2.length := by
  rw [V1.layeredRow]
  exact layeredRowGo_length _ _ g.2 0

theorem v1CreateNodes_length (rs : List AWSResource) :
    (V1.createNodes rs).length = rs.length := by
  rw [V1.createNodes, List.length_flatMap]
  have hmap : (groupByKey (fun r => r.serviceType) rs).map (List.length ∘ V1.layeredRow) =
      (groupByKey (fun r => r.serviceType) rs).map (fun g => g.2.length) := by
    apply List.map_congr_left
    intro g _
    exact layeredRow_length g
  rw [hmap]
  exact sumLen_groupByKey _ rs

/-! ### Regional layout band lemmas -/

theorem mem_serviceBlockGo (vs hs cx cy w : Nat) :
    ∀ (srs : List AWSResource) (i : Nat) (nd : NodeRM),
      nd ∈ RM.serviceBlockGo vs hs cx cy w i srs →
      ∃ j r, i ≤ j ∧ j < i + srs.length ∧ r ∈ srs ∧
        nd = RM.createNodeObject r (↑(cx + (j % w) * (160 + hs))) (↑(cy + (j / w) * vs)) := by
  intro srs
  induction srs with
  | nil => intro i nd h; simp [RM.serviceBlockGo] at h
  | cons r rest ih =>
      intro i nd h
      rcases List.mem_cons.mp h with h | h
      · exact ⟨i, r, Nat.le_refl i, by simp, List.mem_cons_self r rest, h⟩
      · obtain ⟨j, r2, hj1, hj2, hr2, he⟩ := ih (i + 1) nd h
        exact ⟨j, r2, by omega, by simp only [List.length_cons]; omega,
          List.mem_cons_of_mem r hr2, he⟩

theorem mem_serviceBlocksGo (vs hs cy : Nat) :
    ∀ (gs : List (String × List AWSResource)) (cx : Nat) (nd : NodeRM),
      nd ∈ RM.serviceBlocksGo vs hs cy cx gs →
      ∃ g ∈ gs, ∃ r ∈ g.2, ∃ row, row ≤ RM.maxRow g.2.length ∧
        nd.pos.y = ((cy + row * vs : Nat) : ℝ) ∧ nd.regionLabel = r.region := by
  intro gs
  induction gs with
  | nil => intro cx nd h; simp [RM.serviceBlocksGo] at h
  | cons g gs ih =>
      intro cx nd h
      rcases List.mem_append.mp h with h | h
      · obtain ⟨j, r, _, hj2, hr, he⟩ := mem_serviceBlockGo vs hs cx cy _ g.2 0 nd h
        refine ⟨g, List.mem_cons_self g gs, r, hr, j / RM.sqrtCeil g.2.length, ?_, ?_, ?_⟩
        · exact Nat.div_le_div_right (by omega)
        · rw [he]
          rfl
        · rw [he]
          rfl
      · obtain ⟨g1, hg1, r, hr, row, hrow, hy, hreg⟩ := ih _ nd h
        exact ⟨g1, List.mem_cons_of_mem g hg1, r, hr, row, hrow, hy, hreg⟩

theorem regionalGo_y_lb (vs hs : Nat) :
    ∀ (gs : List (String × List AWSResource)) (cy : Nat) (nd : NodeRM),
      nd ∈ RM.regionalGo vs hs cy gs →
      ∃ yn : Nat, nd.pos.y = (yn : ℝ) ∧ cy ≤ yn := by
  intro gs
  induction gs with
  | nil => intro cy nd h; simp [RM.regionalGo] at h
  | cons g gs ih =>
      intro cy nd h
      rcases List.mem_append.mp h with h | h
      · obtain ⟨_, _, _, _, _, _, hy, _⟩ := mem_serviceBlocksGo vs hs cy _ 0 nd h
        exact ⟨_, hy, Nat.le_add_right cy _⟩
      · obtain ⟨yn, hy, hge⟩ := ih (cy + 300) nd h
        exact ⟨yn, hy, by omega⟩

theorem regionalGo_region_keys (vs hs : Nat) :
    ∀ (gs : List (String × List AWSResource)) (cy : Nat),
      (∀ g ∈ gs, ∀ x ∈ g.2, x.region = g.1) →
      ∀ nd ∈ RM.regionalGo vs hs cy gs, nd.regionLabel ∈ gs.map Prod.fst := by
  intro gs
  induction gs with
  | nil => intro cy _ nd h; simp [RM.regionalGo] at h
  | cons g gs ih =>
      intro cy hkey nd h
      rcases List.mem_append.mp h with h | h
      · obtain ⟨g1, hg1, r, hr, _, _, _, hreg⟩ := mem_serviceBlocksGo vs hs cy _ 0 nd h
        have hrg2 : r ∈ g.2 :=
          groupByKey_forall (fun x => x.serviceType) (fun x => x ∈ g.2) g.2
            (fun x hx => hx) g1 hg1 r hr
        have : nd.regionLabel = g.1 := by
          rw [hreg]
          exact hkey g (List.mem_cons_self g gs) r hrg2
        simp [this]
      · have := ih (cy + 300) (fun g1 hg1 => hkey g1 (List.mem_cons_of_mem g hg1)) nd h
        simp [this]

theorem regionBlock_node_region (vs hs cy cx : Nat) (g : String × List AWSResource)
    (hkey : ∀ x ∈ g.2, x.region = g.1) (nd : NodeRM)
    (h : nd ∈ RM.serviceBlocksGo vs hs cy cx (groupByKey (fun r => r.serviceType) g.2)) :
    nd.regionLabel = g.1 := by
  obtain ⟨g1, hg1, r, hr, _, _, _, hreg⟩ := mem_serviceBlocksGo vs hs cy _ cx nd h
  have hrg2 : r ∈ g.2 :=
    groupByKey_forall (fun x => x.serviceType) (fun x => x ∈ g.2) g.2
      (fun x hx => hx) g1 hg1 r hr
  rw [hreg]
  exact hkey r hrg2

theorem regionBlock_y_ub (vs hs cy cx : Nat) (g : String × List AWSResource)
    (hyp : ∀ b ∈ (groupByKey (fun r => r.serviceType) g.2).map Prod.snd,
      RM.maxRow b.length * vs < 300) (nd : NodeRM)
    (h : nd ∈ RM.serviceBlocksGo vs hs cy cx (groupByKey (fun r => r.serviceType) g.2)) :
    ∃ yn : Nat, nd.pos.y = (yn : ℝ) ∧ yn < cy + 300 := by
  obtain ⟨g1, hg1, r, hr, row, hrow, hy, _⟩ := mem_serviceBlocksGo vs hs cy _ cx nd h
  refine ⟨cy + row * vs, hy, ?_⟩
  have hb : RM.maxRow g1.2.length * vs < 300 :=
    hyp g1.2 (List.mem_map_of_mem Prod.snd hg1)
  have : row * vs ≤ RM.maxRow g1.2.length * vs := Nat.mul_le_mul_right vs hrow
  omega

theorem regionalGo_bands (vs hs : Nat) :
    ∀ (gs : List (String × List AWSResource)) (cy : Nat),
      (gs.map Prod.fst).Nodup →
      (∀ g ∈ gs, ∀ x ∈ g.2, x.region = g.1) →
      (∀ g ∈ gs, ∀ b ∈ (groupByKey (fun r => r.serviceType) g.2).map Prod.snd,
        RM.maxRow b.length * vs < 300) →
      ∀ u ∈ RM.regionalGo vs hs cy gs, ∀ v ∈ RM.regionalGo vs hs cy gs,
        (gs.map Prod.fst).indexOf u.regionLabel <
          (gs.map Prod.fst).indexOf v.regionLabel →
        u.pos.y < v.pos.y := by
  intro gs
  induction gs with
  | nil => intro cy _ _ _ u hu; simp [RM.regionalGo] at hu
  | cons g gs ih =>
      intro cy hnd hkey hyp u hu v hv hlt
      have hndHead : g.1 ∉ gs.map Prod.fst := by
        rw [List.map_cons, List.nodup_cons] at hnd
        exact hnd.1
      have hndTail : (gs.map Prod.fst).Nodup := by
        rw [List.map_cons, List.nodup_cons] at hnd
        exact hnd.2
      have hkeyTail : ∀ g1 ∈ gs, ∀ x ∈ g1.2, x.region = g1.1 :=
        fun g1 hg1 => hkey g1 (List.mem_cons_of_mem g hg1)
      rcases List.mem_append.mp hu with hu | hu
      · have hureg : u.regionLabel = g.1 :=
          regionBlock_node_region vs hs cy 0 g (hkey g (List.mem_cons_self g gs)) u hu
        have hidxu : ((g :: gs).map Prod.fst).indexOf u.regionLabel = 0 := by
          rw [List.map_cons, hureg]
          exact List.indexOf_cons_self g.1 (gs.map Prod.fst)
        rcases List.mem_append.mp hv with hv | hv
        · have hvreg : v.regionLabel = g.1 :=
            regionBlock_node_region vs hs cy 0 g (hkey g (List.mem_cons_self g gs)) v hv
          have hidxv : ((g :: gs).map Prod.fst).indexOf v.regionLabel = 0 := by
            rw [List.map_cons, hvreg]
            exact List.indexOf_cons_self g.1 (gs.map Prod.fst)
          rw [hidxu, hidxv] at hlt
          omega
        · obtain ⟨ynu, hyu, hub⟩ :=
            regionBlock_y_ub vs hs cy 0 g (hyp g (List.mem_cons_self g gs)) u hu
          obtain ⟨ynv, hyv, hlb⟩ := regionalGo_y_lb vs hs gs (cy + 300) v hv
          rw [hyu, hyv]
          exact_mod_cast (by omega : ynu < ynv)
      · have huregs : u.regionLabel ∈ gs.map Prod.fst :=
          regionalGo_region_keys vs hs gs (cy + 300) hkeyTail u hu
        have hune : g.1 ≠ u.regionLabel := by
          intro he
          exact hndHead (he ▸ huregs)
        have hidxu : ((g :: gs).map Prod.fst).indexOf u.regionLabel =
            ((gs.map Prod.fst).indexOf u.regionLabel) + 1 := by
          rw [List.map_cons]
          exact List.indexOf_cons_ne _ hune
        rcases List.mem_append.mp hv with hv | hv
        · have hvreg : v.regionLabel = g.1 :=
            regionBlock_node_region vs hs cy 0 g (hkey g (List.mem_cons_self g gs)) v hv
          have hidxv : ((g :: gs).map Prod.fst).indexOf v.regionLabel = 0 := by
            rw [List.map_cons, hvreg]
            exact List.indexOf_cons_self g.1 (gs.map Prod.fst)
          rw [hidxu, hidxv] at hlt
          omega
        · have hvregs : v.regionLabel ∈ gs.map Prod.fst :=
            regionalGo_region_keys vs hs gs (cy + 300) hkeyTail v hv
          have hvne : g.1 ≠ v.regionLabel := by
            intro he
            exact hndHead (he ▸ hvregs)
          have hidxv : ((g :: gs).map Prod.fst).indexOf v.regionLabel =
              ((gs.map Prod.fst).indexOf v.regionLabel) + 1 := by
            rw [List.map_cons]
            exact List.indexOf_cons_ne _ hvne
          rw [hidxu, hidxv] at hlt
          exact ih (cy + 300) hndTail hkeyTail
            (fun g1 hg1 => hyp g1 (List.mem_cons_of_mem g hg1)) u hu v hv (by omega)

end AwsMap

namespace AwsMap

/-! ### Circular layout characterization -/

theorem circularGo_getEntry (radius step : ℝ) :
    ∀ (srs : List AWSResource) (j i : Nat), i < srs.length →
      ∃ r, srs.get? i = some r ∧
        (RM.circularGo radius step j srs).get? i =
          some (RM.createNodeObject r (radius * Real.cos (↑(j + i) * step))
            (radius * Real.sin (↑(j + i) * step))) := by
  intro srs
  induction srs with
  | nil => intro j i h; simp at h
  | cons r rest ih =>
      intro j i h
      cases i with
      | zero =>
          refine ⟨r, rfl, ?_⟩
          simp [RM.circularGo]
      | succ i =>
          have h2 : i < rest.length := by simpa using h
          obtain ⟨r2, hget, hnode⟩ := ih (j + 1) i h2
          refine ⟨r2, by simpa using hget, ?_⟩
          have hjj : j + 1 + i = j + (i + 1) := by omega
          rw [RM.circularGo]
          simpa [hjj] using hnode

/-! ### Edge emitter lemmas -/

theorem foldl_pushEdge_nodup (sel : Option String) :
    ∀ (ems : List RM.Emission) (st : EdgeState),
      (st.edges.map Edge.id).Nodup → (∀ i ∈ st.edges.map Edge.id, i ∈ st.used) →
      ((ems.foldl (RM.pushEdge sel) st).edges.map Edge.id).Nodup ∧
        ∀ i ∈ (ems.foldl (RM.pushEdge sel) st).edges.map Edge.id,
          i ∈ (ems.foldl (RM.pushEdge sel) st).used := by
  intro ems
  induction ems with
  | nil => intro st h1 h2; exact ⟨h1, h2⟩
  | cons em ems ih =>
      intro st h1 h2
      simp only [List.foldl_cons]
      apply ih
      · have hfresh := createUniqueEdgeId_not_mem st.used em.base
        simp only [RM.pushEdge, List.map_append, List.map_cons, List.map_nil]
        rw [List.nodup_append]
        refine ⟨h1, by simp, ?_⟩
        intro a ha hb
        rcases List.mem_singleton.mp hb with hb
        exact hfresh (hb ▸ h2 a ha)
      · intro i hi
        simp only [RM.pushEdge, List.map_append, List.map_cons, List.map_nil,
          List.mem_append, List.mem_singleton] at hi ⊢
        rcases hi with hi | hi
        · exact Or.inl (h2 i hi)
        · exact Or.inr hi

theorem foldl_pushEdge_dropStyle (sel1 sel2 : Option String) :
    ∀ (ems : List RM.Emission) (st1 st2 : EdgeState),
      st1.used = st2.used → st1.edges.map dropStyle = st2.edges.map dropStyle →
      (ems.foldl (RM.pushEdge sel1) st1).used = (ems.foldl (RM.pushEdge sel2) st2).used ∧
      (ems.foldl (RM.pushEdge sel1) st1).edges.map dropStyle =
        (ems.foldl (RM.pushEdge sel2) st2).edges.map dropStyle := by
  intro ems
  induction ems with
  | nil => intro st1 st2 hu he; exact ⟨hu, he⟩
  | cons em ems ih =>
      intro st1 st2 hu he
      simp only [List.foldl_cons]
      apply ih
      · simp [RM.pushEdge, hu]
      · simp [RM.pushEdge, hu, he, dropStyle]

theorem foldl_pushEdgeV1_dropStyle (sel1 sel2 : Option String) :
    ∀ (ems : List V1.EmissionV1) (st1 st2 : EdgeState),
      st1.used = st2.used → st1.edges.map dropStyle = st2.edges.map dropStyle →
      (ems.foldl (V1.pushEdgeV1 sel1) st1).used =
        (ems.foldl (V1.pushEdgeV1 sel2) st2).used ∧
      (ems.foldl (V1.pushEdgeV1 sel1) st1).edges.map dropStyle =
        (ems.foldl (V1.pushEdgeV1 sel2) st2).edges.map dropStyle := by
  intro ems
  induction ems with
  | nil => intro st1 st2 hu he; exact ⟨hu, he⟩
  | cons em ems ih =>
      intro st1 st2 hu he
      simp only [List.foldl_cons]
      apply ih
      · rw [V1.pushEdgeV1, V1.pushEdgeV1, hu]
        split
        · exact hu
        · simp [hu]
      · rw [V1.pushEdgeV1, V1.pushEdgeV1, hu]
        split
        · exact he
        · simp [he, dropStyle]

theorem foldl_pushEdge_filter (sel : Option String) (L : String) :
    ∀ (ems : List RM.Emission) (st : EdgeState),
      ((ems.foldl (RM.pushEdge sel) st).edges.filter (fun e => e.label == L)).map
          (fun e => (e.source, e.target)) =
        ((st.edges.filter (fun e => e.label == L)).map (fun e => (e.source, e.target))) ++
          ((ems.filter (fun em => em.label == L)).map (fun em => (em.source, em.target))) := by
  intro ems
  induction ems with
  | nil => intro st; simp
  | cons em ems ih =>
      intro st
      simp only [List.foldl_cons]
      rw [ih]
      by_cases hl : (em.label == L)
      · simp [RM.pushEdge, List.filter_append, List.filter_cons, hl]
      · simp [RM.pushEdge, List.filter_append, List.filter_cons, hl]

theorem foldl_pushEdgeV1_filter_avoid (sel : Option String) (L : String) :
    ∀ (ems : List V1.EmissionV1) (st : EdgeState),
      (∀ em ∈ ems, (em.label == L) = false) →
      ((ems.foldl (V1.pushEdgeV1 sel) st).edges.filter (fun e => e.label == L)) =
        st.edges.filter (fun e => e.label == L) := by
  intro ems
  induction ems with
  | nil => intro st _; rfl
  | cons em ems ih =>
      intro st hall
      simp only [List.foldl_cons]
      rw [ih _ (fun e he => hall e (List.mem_cons_of_mem em he))]
      have hl := hall em (List.mem_cons_self em ems)
      rw [V1.pushEdgeV1]
      split
      · rfl
      · simp [List.filter_append, List.filter_cons, hl]

/-! ### Emission shape lemmas -/

theorem mem_optList {α : Type} (o : Option String) (f : String → α) (x : α)
    (h : x ∈ optList o f) : ∃ s, o = some s ∧ x = f s := by
  cases o with
  | none => simp [optList] at h
  | some s =>
      rcases List.mem_singleton.mp h with h
      exact ⟨s, rfl, h⟩

theorem filter_optList_nil {α : Type} (p : α → Bool) (o : Option String)
    (f : String → α) (h : ∀ s, p (f s) = false) : (optList o f).filter p = [] := by
  cases o with
  | none => rfl
  | some s => simp [optList, List.filter_cons, h s]

theorem filter_listList_nil {α : Type} (p : α → Bool) (o : Option (List String))
    (f : String → α) (h : ∀ s, p (f s) = false) : (listList o f).filter p = [] := by
  cases o with
  | none => rfl
  | some xs =>
      simp only [listList]
      rw [List.filter_map]
      have : List.filter (p ∘ f) xs = [] := by
        rw [List.filter_eq_nil_iff]
        intro a _
        simp [h a]
      rw [this]
      rfl

theorem rmEmissions_none (r : AWSResource) (h : r.relationships = none) :
    RM.emissions r = [] := by
  simp [RM.emissions, h]

end AwsMap

namespace AwsMap

/-! ### Labels of the part_004 rules -/

theorem emTG_label (r : AWSResource) : ∀ em ∈ V1.emTG r, em.label = "Target Group" := by
  intro em h
  rw [V1.emTG] at h
  split at h
  · obtain ⟨s, _, he⟩ := mem_optList _ _ _ h
    rw [he]
  · simp at h

theorem emDNS_label (rs : List AWSResource) (r : AWSResource) :
    ∀ em ∈ V1.emDNS rs r, em.label = "DNS Alias" := by
  intro em h
  rw [V1.emDNS] at h
  split at h
  · obtain ⟨c, _, he⟩ := List.mem_map.mp h
    rw [← he]
  · simp at h

theorem emZone_label (rs : List AWSResource) (r : AWSResource) :
    ∀ em ∈ V1.emZone rs r, em.label = "Record" := by
  intro em h
  rw [V1.emZone] at h
  split at h
  · split at h
    · rcases List.mem_singleton.mp h with h
      rw [h]
    · simp at h
  · simp at h

theorem emCert_label (r : AWSResource) : ∀ em ∈ V1.emCert r, em.label = "SSL/TLS" := by
  intro em h
  rw [V1.emCert] at h
  split at h
  · obtain ⟨s, _, he⟩ := mem_optList _ _ _ h
    rw [he]
  · simp at h

theorem emVol_label (r : AWSResource) : ∀ em ∈ V1.emVol r, em.label = "Volume" := by
  intro em h
  rw [V1.emVol] at h
  obtain ⟨c, _, he⟩ := List.mem_map.mp h
  rw [← he]

theorem emIgwAlb_label (rs : List AWSResource) (r : AWSResource) :
    ∀ em ∈ V1.emIgwAlb rs r, em.label = "Internet Access" := by
  intro em h
  rw [V1.emIgwAlb] at h
  split at h
  · split at h
    · rcases List.mem_singleton.mp h with h
      rw [h]
    · simp at h
  · simp at h

theorem emNatAlb_label (rs : List AWSResource) (r : AWSResource) :
    ∀ em ∈ V1.emNatAlb rs r, em.label = "NAT Access" := by
  intro em h
  rw [V1.emNatAlb] at h
  split at h
  · obtain ⟨c, _, he⟩ := List.mem_map.mp h
    rw [← he]
  · simp at h

theorem emIgwNat_label (rs : List AWSResource) (r : AWSResource) :
    ∀ em ∈ V1.emIgwNat rs r, em.label = "Internet Access" := by
  intro em h
  rw [V1.emIgwNat] at h
  split at h
  · split at h
    · rcases List.mem_singleton.mp h with h
      rw [h]
    · simp at h
  · simp at h

theorem emEcsTg_label (rs : List AWSResource) (r : AWSResource) :
    ∀ em ∈ V1.emEcsTg rs r, em.label = "Service Registration" := by
  intro em h
  rw [V1.emEcsTg] at h
  split at h
  · obtain ⟨c, _, he⟩ := List.mem_map.mp h
    rw [← he]
  · simp at h

theorem emEvent_label (rs : List AWSResource) (r : AWSResource) :
    ∀ em ∈ V1.emEvent rs r, em.label = "Trigger" := by
  intro em h
  rw [V1.emEvent] at h
  split at h
  · obtain ⟨c, _, he⟩ := List.mem_map.mp h
    rw [← he]
  · simp at h

theorem emCluster_label (rs : List AWSResource) (r : AWSResource) :
    ∀ em ∈ V1.emCluster rs r, em.label = "Service" := by
  intro em h
  rw [V1.emCluster] at h
  split at h
  · split at h
    · rcases List.mem_singleton.mp h with h
      rw [h]
    · simp at h
  · simp at h

theorem emApi_label (rs : List AWSResource) (r : AWSResource) :
    ∀ em ∈ V1.emApi rs r, em.label = "Integration" := by
  intro em h
  rw [V1.emApi] at h
  split at h
  · obtain ⟨c, _, he⟩ := List.mem_map.mp h
    rw [← he]
  · simp at h

theorem v1Emissions_decomp (rs : List AWSResource) (r : AWSResource) :
    V1.emissions rs r = V1.emSG r ++
      (V1.emTG r ++ (V1.emDNS rs r ++ (V1.emZone rs r ++ (V1.emCert r ++
        (V1.emVol r ++ (V1.emIgwAlb rs r ++ (V1.emNatAlb rs r ++ (V1.emIgwNat rs r ++
          (V1.emEcsTg rs r ++ (V1.emEvent rs r ++
            (V1.emCluster rs r ++ V1.emApi rs r))))))))))) := by
  simp [V1.emissions, List.append_assoc]

theorem v1Rest_avoid (rs : List AWSResource) (r : AWSResource) :
    ∀ em ∈ V1.emTG r ++ (V1.emDNS rs r ++ (V1.emZone rs r ++ (V1.emCert r ++
      (V1.emVol r ++ (V1.emIgwAlb rs r ++ (V1.emNatAlb rs r ++ (V1.emIgwNat rs r ++
        (V1.emEcsTg rs r ++ (V1.emEvent rs r ++
          (V1.emCluster rs r ++ V1.emApi rs r)))))))))),
      (em.label == "Security Group") = false := by
  intro em h
  simp only [List.mem_append] at h
  rcases h with h | h | h | h | h | h | h | h | h | h | h | h
  · rw [emTG_label r em h]; rfl
  · rw [emDNS_label rs r em h]; rfl
  · rw [emZone_label rs r em h]; rfl
  · rw [emCert_label r em h]; rfl
  · rw [emVol_label r em h]; rfl
  · rw [emIgwAlb_label rs r em h]; rfl
  · rw [emNatAlb_label rs r em h]; rfl
  · rw [emIgwNat_label rs r em h]; rfl
  · rw [emEcsTg_label rs r em h]; rfl
  · rw [emEvent_label rs r em h]; rfl
  · rw [emCluster_label rs r em h]; rfl
  · rw [emApi_label rs r em h]; rfl

theorem v1Emissions_avoid (rs : List AWSResource) (s : AWSResource)
    (h : s.relationships = none) :
    ∀ em ∈ V1.emissions rs s, (em.label == "Security Group") = false := by
  intro em hm
  rw [v1Emissions_decomp] at hm
  rcases List.mem_append.mp hm with hm | hm
  · simp [V1.emSG, relList, h] at hm
  · exact v1Rest_avoid rs s em hm

end AwsMap

namespace AwsMap

/-! ### A lone resource without a relationships record yields no edges -/

theorem v1Emissions_lonely (r : AWSResource) (h : r.relationships = none) :
    V1.emissions [r] r = [] := by
  have hSG : V1.emSG r = [] := by simp [V1.emSG, relList, h]
  have hTG : V1.emTG r = [] := by
    rw [V1.emTG]
    split
    · simp [relOpt, h, optList]
    · rfl
  have hDNS : V1.emDNS [r] r = [] := by
    rw [V1.emDNS]
    split
    · simp [V1.dnsMatch, relList, h]
    · rfl
  have hZone : V1.emZone [r] r = [] := by
    by_cases hc : r.type = "Route 53 Record"
    · simp [V1.emZone, hc]
    · simp [V1.emZone, hc]
  have hCert : V1.emCert r = [] := by
    rw [V1.emCert]
    split
    · simp [relOpt, h, optList]
    · rfl
  have hVol : V1.emVol r = [] := by simp [V1.emVol, relList, h]
  have hIgwAlb : V1.emIgwAlb [r] r = [] := by
    by_cases hc : r.type = "Application Load Balancer"
    · simp [V1.emIgwAlb, hc]
    · simp [V1.emIgwAlb, hc]
  have hNatAlb : V1.emNatAlb [r] r = [] := by
    by_cases hc : r.type = "NAT Gateway"
    · simp [V1.emNatAlb, hc]
    · simp [V1.emNatAlb, hc]
  have hIgwNat : V1.emIgwNat [r] r = [] := by
    by_cases hc : r.type = "NAT Gateway"
    · simp [V1.emIgwNat, hc]
    · simp [V1.emIgwNat, hc]
  have hEcsTg : V1.emEcsTg [r] r = [] := by
    by_cases hc : r.type = "ECS Service"
    · simp [V1.emEcsTg, hc]
    · simp [V1.emEcsTg, hc]
  have hEvent : V1.emEvent [r] r = [] := by
    by_cases hc : r.type = "EventBridge Rule"
    · simp [V1.emEvent, hc]
    · simp [V1.emEvent, hc]
  have hCluster : V1.emCluster [r] r = [] := by
    by_cases hc : r.type = "ECS Service"
    · simp [V1.emCluster, hc]
    · simp [V1.emCluster, hc]
  have hApi : V1.emApi [r] r = [] := by
    by_cases hc : r.type = "Lambda Function"
    · simp [V1.emApi, hc]
    · simp [V1.emApi, hc]
  rw [V1.emissions, hSG, hTG, hDNS, hZone, hCert, hVol, hIgwAlb, hNatAlb,
    hIgwNat, hEcsTg, hEvent, hCluster, hApi]
  rfl

end AwsMap

namespace AwsMap

/-! ### Security group emissions of one resource -/

theorem append_mid_ne (p s t u : String) (h : s ≠ t) : p ++ s ++ u ≠ p ++ t ++ u := by
  intro he
  apply h
  have hdata := congrArg String.data he
  rw [String.data_append, String.data_append, String.data_append,
    String.data_append] at hdata
  rw [List.append_assoc, List.append_assoc] at hdata
  have hst := List.append_cancel_left hdata
  exact String.ext (List.append_cancel_right hst)

theorem v1EmSG_pair (r : AWSResource) (rel : Relationships)
    (hr : r.relationships = some rel)
    (hsg : rel.securityGroups = some ["sg-1", "sg-2"]) :
    V1.emSG r =
      [⟨r.id ++ "-" ++ "sg-1" ++ "-sg", r.id, "sg-1", "Security Group", true⟩,
       ⟨r.id ++ "-" ++ "sg-2" ++ "-sg", r.id, "sg-2", "Security Group", true⟩] := by
  simp [V1.emSG, relList, hr, hsg]

theorem rmEmissions_filter_sg (r : AWSResource) (rel : Relationships)
    (hr : r.relationships = some rel)
    (hsg : rel.securityGroups = some ["sg-1", "sg-2"]) :
    (RM.emissions r).filter (fun em => em.label == "Security Group") =
      [⟨r.id ++ "-" ++ "sg-1", r.id, "sg-1", "Security Group", "#94a3b8"⟩,
       ⟨r.id ++ "-" ++ "sg-2", r.id, "sg-2", "Security Group", "#94a3b8"⟩] := by
  rw [RM.emissions]
  rw [hr]
  simp only [List.filter_append]
  rw [filter_listList_nil _ rel.dnsRecords _ (fun s => rfl)]
  rw [filter_listList_nil _ rel.aliases _ (fun s => rfl)]
  rw [filter_listList_nil _ rel.targetGroups _ (fun s => rfl)]
  rw [filter_optList_nil _ rel.loadBalancer _ (fun s => rfl)]
  rw [filter_optList_nil _ rel.certificate _ (fun s => rfl)]
  rw [filter_listList_nil _ rel.instances _ (fun s => rfl)]
  rw [filter_listList_nil _ rel.volumes _ (fun s => rfl)]
  rw [filter_optList_nil _ rel.cloudfront _ (fun s => rfl)]
  rw [filter_optList_nil _ rel.repository _ (fun s => rfl)]
  rw [filter_optList_nil _ rel.origin _ (fun s => rfl)]
  rw [filter_optList_nil _ rel.wafAcl _ (fun s => rfl)]
  rw [filter_listList_nil _ rel.wafRules _ (fun s => rfl)]
  rw [filter_listList_nil _ rel.wafAssociations _ (fun s => rfl)]
  rw [filter_optList_nil _ rel.protectedBy _ (fun s => rfl)]
  rw [filter_optList_nil _ rel.protectedBy _ (fun s => rfl)]
  rw [hsg]
  have hR53 : List.filter (fun em => em.label == "Security Group")
      (if r.serviceType = "Route 53" then
        optList rel.loadBalancer (fun lb =>
          (⟨"route53-alb-" ++ r.id ++ "-" ++ lb, r.id, lb, "ALB Record",
            "#F0E68C"⟩ : RM.Emission)) ++
        optList rel.cloudfront (fun cf =>
          ⟨"route53-cf-" ++ r.id ++ "-" ++ cf, r.id, cf, "CloudFront Record", "#F0E68C"⟩) ++
        optList rel.bucket (fun b =>
          ⟨"route53-s3-" ++ r.id ++ "-" ++ b, r.id, b, "S3 Record", "#F0E68C"⟩) ++
        optList rel.hostedZone (fun hz =>
          ⟨"route53-hz-" ++ r.id ++ "-" ++ hz, r.id, hz, "Hosted Zone", "#F0E68C"⟩)
      else []) = [] := by
    split
    · simp only [List.filter_append]
      rw [filter_optList_nil _ rel.loadBalancer _ (fun s => rfl)]
      rw [filter_optList_nil _ rel.cloudfront _ (fun s => rfl)]
      rw [filter_optList_nil _ rel.bucket _ (fun s => rfl)]
      rw [filter_optList_nil _ rel.hostedZone _ (fun s => rfl)]
      rfl
    · rfl
  have hWAF : List.filter (fun em => em.label == "Security Group")
      (if r.serviceType = "WAF" then
        listList rel.wafAssociations (fun t =>
          (⟨"waf-" ++ r.id ++ "-" ++ t, r.id, t, "Protects", "#FF69B4"⟩ : RM.Emission)) ++
        listList rel.wafRules (fun rule =>
          ⟨"waf-rule-" ++ r.id ++ "-" ++ rule, r.id, rule, "WAF Rule", "#FF69B4"⟩)
      else []) = [] := by
    split
    · simp only [List.filter_append]
      rw [filter_listList_nil _ rel.wafAssociations _ (fun s => rfl)]
      rw [filter_listList_nil _ rel.wafRules _ (fun s => rfl)]
      rfl
    · rfl
  rw [hR53, hWAF]
  simp [listList, List.filter_cons]

end AwsMap

namespace AwsMap

/-! ### Folding the two security group emissions of part_004 -/

theorem v1_sg_fold (sel : Option String) (r : AWSResource) (rel : Relationships)
    (hr : r.relationships = some rel)
    (hsg : rel.securityGroups = some ["sg-1", "sg-2"])
    (rest : List V1.EmissionV1)
    (hrest : ∀ em ∈ rest, (em.label == "Security Group") = false) :
    (((V1.emSG r ++ rest).foldl (V1.pushEdgeV1 sel) ⟨[], []⟩).edges.filter
      (fun e => e.label == "Security Group")).map (fun e => (e.source, e.target)) =
    [(r.id, "sg-1"), (r.id, "sg-2")] := by
  rw [v1EmSG_pair r rel hr hsg]
  have hne : (r.id ++ "-" ++ "sg-1" ++ "-sg") ≠ (r.id ++ "-" ++ "sg-2" ++ "-sg") :=
    append_mid_ne (r.id ++ "-") "sg-1" "sg-2" "-sg" (by decide)
  have hne2 : (r.id ++ "-" ++ "sg-2" ++ "-sg") ≠ (r.id ++ "-" ++ "sg-1" ++ "-sg") :=
    Ne.symm hne
  simp only [List.cons_append, List.nil_append, List.foldl_cons]
  have hst : V1.pushEdgeV1 sel
      (V1.pushEdgeV1 sel ⟨[], []⟩
        ⟨r.id ++ "-" ++ "sg-1" ++ "-sg", r.id, "sg-1", "Security Group", true⟩)
      ⟨r.id ++ "-" ++ "sg-2" ++ "-sg", r.id, "sg-2", "Security Group", true⟩ =
      ⟨[⟨r.id ++ "-" ++ "sg-1" ++ "-sg", r.id, "sg-1", "Security Group",
          if sel = some (r.id ++ "-" ++ "sg-1" ++ "-sg") then "#ef4444" else "#94a3b8"⟩,
        ⟨r.id ++ "-" ++ "sg-2" ++ "-sg", r.id, "sg-2", "Security Group",
          if sel = some (r.id ++ "-" ++ "sg-2" ++ "-sg") then "#ef4444" else "#94a3b8"⟩],
       [r.id ++ "-" ++ "sg-1" ++ "-sg", r.id ++ "-" ++ "sg-2" ++ "-sg"]⟩ := by
    simp [V1.pushEdgeV1, hne2]
  rw [hst]
  rw [foldl_pushEdgeV1_filter_avoid sel "Security Group" rest _ hrest]
  simp [List.filter_cons]

end AwsMap

namespace AwsMap

/-! ### Claim theorems -/

/-- C1: one node per input resource. The regional and the circular
branches of the ResourceMap.tsx createNodes and the part_004 createNodes
all return exactly resources.length nodes; the layered (and grouped)
branch of ResourceMap.tsx instead raises a ReferenceError because its
Object.entries(serviceGroups) reads a binding that only exists inside
the regional branch, so the claim fails on the code for those layouts
(code bug, shown at the concrete error value). -/
theorem c1_one_node_per_resource :
    (∀ (vs hs : Nat) (rs : List AWSResource),
      (RM.createNodes ⟨vs, hs, .regional⟩ rs).map List.length = .ok rs.length) ∧
    (∀ (vs hs : Nat) (rs : List AWSResource),
      (RM.createNodes ⟨vs, hs, .circular⟩ rs).map List.length = .ok rs.length) ∧
    (∀ rs : List AWSResource, (V1.createNodes rs).length = rs.length) ∧
    (∀ (vs hs : Nat) (rs : List AWSResource),
      RM.createNodes ⟨vs, hs, .layered⟩ rs =
        .error "ReferenceError: serviceGroups is not defined") := by
  refine ⟨?_, ?_, v1CreateNodes_length, ?_⟩
  · intro vs hs rs
    simp [RM.createNodes, Except.map, regionalNodes_length]
  · intro vs hs rs
    simp [RM.createNodes, Except.map, circularNodes_length]
  · intro vs hs rs
    rfl

/-- C2: the node and edge derivation never throws on missing optional
fields: a resource without a relationships record contributes no edges
in either builder, and an empty name falls back to the id for display.
The grouped (and layered) branch of the ResourceMap.tsx createNodes
however raises a ReferenceError on every input, because serviceGroups
is not in scope there, so the claim fails on the code for those two
layout settings (code bug, shown at the concrete error value). -/
theorem c2_missing_fields_never_throw :
    (RM.createNodes ⟨150, 200, .grouped⟩ [plainSample] =
      .error "ReferenceError: serviceGroups is not defined") ∧
    (∀ (sel : Option String) (r : AWSResource), r.relationships = none →
      RM.createEdges sel [r] = []) ∧
    (∀ (sel : Option String) (r : AWSResource), r.relationships = none →
      V1.createEdges sel [r] = []) ∧
    (∀ (r : AWSResource) (x y : ℝ), r.name = "" →
      (RM.createNodeObject r x y).display = r.id ∧
        (V1.mkNodeObject r x y).display = r.id) := by
  refine ⟨rfl, ?_, ?_, ?_⟩
  · intro sel r h
    rw [RM.createEdges]
    simp [rmEmissions_none r h]
  · intro sel r h
    rw [V1.createEdges]
    simp [v1Emissions_lonely r h]
  · intro r x y h
    exact ⟨by simp [RM.createNodeObject, h], by simp [V1.mkNodeObject, h]⟩

/-- C2 witness: the hypotheses of the C2 theorem hold at the sample
resource with no relationships record and an empty name. -/
theorem c2_missing_fields_never_throw_witness :
    plainSample.relationships = none ∧ plainSample.name = "" ∧
    RM.createEdges none [plainSample] = [] ∧
    V1.createEdges none [plainSample] = [] ∧
    (RM.createNodeObject plainSample 0 0).display = plainSample.id := by
  refine ⟨rfl, rfl, ?_, ?_, ?_⟩
  · exact c2_missing_fields_never_throw.2.1 none plainSample rfl
  · exact c2_missing_fields_never_throw.2.2.1 none plainSample rfl
  · exact (c2_missing_fields_never_throw.2.2.2 plainSample 0 0 rfl).1

/-- C5: with one Route 53 record named api.example.com. (trailing dot)
and one application load balancer whose dnsRecords holds
api.example.com, the part_004 edge builder produces exactly the DNS
Alias edge from the record to the load balancer. -/
theorem c5_dns_alias_scenario :
    V1.createEdges none [recSample, albSample] =
      [⟨"rec-1" ++ "-" ++ "alb-1" ++ "-dns", "rec-1", "alb-1",
        "DNS Alias", "#94a3b8"⟩] := by
  decide

/-- C7: in the click-to-select variant (ResourceMap.tsx), the edge ids
of one build are pairwise distinct, and the allocator
createUniqueEdgeId never returns an id already in the used set. -/
theorem c7_edge_ids_pairwise_distinct :
    (∀ (sel : Option String) (rs : List AWSResource),
      ((RM.createEdges sel rs).map Edge.id).Nodup) ∧
    (∀ (used : List String) (base : String),
      RM.createUniqueEdgeId used base ∉ used) := by
  constructor
  · intro sel rs
    rw [RM.createEdges]
    exact (foldl_pushEdge_nodup sel _ ⟨[], []⟩ (by simp) (by simp)).1
  · exact createUniqueEdgeId_not_mem

/-- C8: node placement is deterministic. Both node builders are modelled
as plain functions of the resources and the layout settings alone; the
source createNodes bodies read no clock, randomness or prior state (the
Date.now calls of the component live in the export handlers, outside the
builder), so re-invocation with identical arguments yields identical
node lists. -/
theorem c8_nodes_deterministic :
    ∀ (ls : LayoutSettings) (rs : List AWSResource),
      RM.createNodes ls rs = RM.createNodes ls rs ∧
        V1.createNodes rs = V1.createNodes rs :=
  fun _ _ => ⟨rfl, rfl⟩

/-- C9: the selected-edge id changes no edge existence: for any two
selection states, both edge builders return the same ids, sources,
targets and labels in the same order; only the stroke color channel can
differ. -/
theorem c9_selection_only_styles :
    ∀ (rs : List AWSResource) (sel1 sel2 : Option String),
      (RM.createEdges sel1 rs).map dropStyle = (RM.createEdges sel2 rs).map dropStyle ∧
      (V1.createEdges sel1 rs).map dropStyle = (V1.createEdges sel2 rs).map dropStyle := by
  intro rs sel1 sel2
  constructor
  · rw [RM.createEdges, RM.createEdges]
    exact (foldl_pushEdge_dropStyle sel1 sel2 _ ⟨[], []⟩ ⟨[], []⟩ rfl rfl).2
  · rw [V1.createEdges, V1.createEdges]
    exact (foldl_pushEdgeV1_dropStyle sel1 sel2 _ ⟨[], []⟩ ⟨[], []⟩ rfl rfl).2

/-- C10: a Route 53 service resource with a loadBalancer relationship
makes both the Route 53 specific rule and the generic load balancer rule
of the ResourceMap.tsx builder fire on the same field: one build returns
two edges with distinct ids between the same endpoints, labeled ALB
Record and Load Balancer. -/
theorem c10_route53_double_edge :
    RM.createEdges none [r53Sample] =
      [⟨"route53-alb-r53-lb-1", "r53", "lb-1", "ALB Record", "#F0E68C"⟩,
       ⟨"r53-lb-1", "r53", "lb-1", "Load Balancer", "#94a3b8"⟩] ∧
    ("route53-alb-r53-lb-1" : String) ≠ "r53-lb-1" := by
  exact ⟨by decide, by decide⟩

end AwsMap

namespace AwsMap

/-- C3 counterexample: with verticalSpacing 300 (a value the slider
offers) and three same-service resources in region ra followed by one in
region rb, the third ra resource reaches row 1, so its ordinate
0 + 1 * 300 = 300 equals the base ordinate 300 of region rb: a node of
the earlier region does not sit strictly below a node of the later
region, refuting the claim as stated. -/
theorem c3_regional_bands_counterexample :
    ∃ u ∈ RM.regionalNodes 300 200 [regA1, regA2, regA3, regB1],
    ∃ v ∈ RM.regionalNodes 300 200 [regA1, regA2, regA3, regB1],
      RM.regionIdx [regA1, regA2, regA3, regB1] u.regionLabel <
        RM.regionIdx [regA1, regA2, regA3, regB1] v.regionLabel ∧
      ¬ u.pos.y < v.pos.y := by
  have hlen : (RM.regionalNodes 300 200 [regA1, regA2, regA3, regB1]).length = 4 := by
    rw [regionalNodes_length]
    rfl
  have h2 : 2 < (RM.regionalNodes 300 200 [regA1, regA2, regA3, regB1]).length := by
    rw [hlen]
    omega
  have h3 : 3 < (RM.regionalNodes 300 200 [regA1, regA2, regA3, regB1]).length := by
    rw [hlen]
    omega
  refine ⟨(RM.regionalNodes 300 200 [regA1, regA2, regA3, regB1]).get ⟨2, h2⟩,
    List.get_mem _ _ _, (RM.regionalNodes 300 200 [regA1, regA2, regA3, regB1]).get ⟨3, h3⟩,
    List.get_mem _ _ _, ?_, ?_⟩
  · have hu : ((RM.regionalNodes 300 200 [regA1, regA2, regA3, regB1]).get
        ⟨2, h2⟩).regionLabel = "ra" := rfl
    have hv : ((RM.regionalNodes 300 200 [regA1, regA2, regA3, regB1]).get
        ⟨3, h3⟩).regionLabel = "rb" := rfl
    rw [hu, hv]
    decide
  · have hyu : ((RM.regionalNodes 300 200 [regA1, regA2, regA3, regB1]).get
        ⟨2, h2⟩).pos.y = ((300 : Nat) : ℝ) := rfl
    have hyv : ((RM.regionalNodes 300 200 [regA1, regA2, regA3, regB1]).get
        ⟨3, h3⟩).pos.y = ((300 : Nat) : ℝ) := rfl
    rw [hyu, hyv]
    exact lt_irrefl _

/-- C3 (amended): the regional vertical cursor advances by a fixed 300
per region, so bands of distinct regions are strictly separated exactly
when every service grid stays below the region spacing: when each
service bucket satisfies maxRow * verticalSpacing < 300, every node of
an earlier region lies strictly above every node of a later region;
without that bound the bands can meet, as the counterexample shows. -/
theorem c3_regional_bands_amended (vs hs : Nat) (rs : List AWSResource)
    (hyp : ∀ b ∈ RM.serviceBucketsAll rs, RM.maxRow b.length * vs < 300) :
    ∀ u ∈ RM.regionalNodes vs hs rs, ∀ v ∈ RM.regionalNodes vs hs rs,
      RM.regionIdx rs u.regionLabel < RM.regionIdx rs v.regionLabel →
      u.pos.y < v.pos.y := by
  intro u hu v hv hlt
  have hnd := groupByKey_keys_nodup (fun r => r.region) rs
  have hkey := groupByKey_keyEq (fun r => r.region) rs
  refine regionalGo_bands vs hs (groupByKey (fun r => r.region) rs) 0 hnd hkey ?_
    u hu v hv hlt
  intro g hg b hb
  apply hyp
  rw [RM.serviceBucketsAll]
  exact List.mem_flatMap.mpr ⟨g, hg, hb⟩

/-- C3 witness: the amended band separation holds on a concrete
two-region input whose service grids respect the bound. -/
theorem c3_regional_bands_amended_witness :
    (∀ b ∈ RM.serviceBucketsAll [regA1, regB1], RM.maxRow b.length * 150 < 300) ∧
    ∃ u ∈ RM.regionalNodes 150 200 [regA1, regB1],
    ∃ v ∈ RM.regionalNodes 150 200 [regA1, regB1],
      RM.regionIdx [regA1, regB1] u.regionLabel <
        RM.regionIdx [regA1, regB1] v.regionLabel ∧
      u.pos.y < v.pos.y := by
  have hlen : (RM.regionalNodes 150 200 [regA1, regB1]).length = 2 := by
    rw [regionalNodes_length]
    rfl
  have h0 : 0 < (RM.regionalNodes 150 200 [regA1, regB1]).length := by
    rw [hlen]
    omega
  have h1 : 1 < (RM.regionalNodes 150 200 [regA1, regB1]).length := by
    rw [hlen]
    omega
  have hlt : RM.regionIdx [regA1, regB1]
      ((RM.regionalNodes 150 200 [regA1, regB1]).get ⟨0, h0⟩).regionLabel <
      RM.regionIdx [regA1, regB1]
        ((RM.regionalNodes 150 200 [regA1, regB1]).get ⟨1, h1⟩).regionLabel := by
    have hu : ((RM.regionalNodes 150 200 [regA1, regB1]).get ⟨0, h0⟩).regionLabel =
        "ra" := rfl
    have hv : ((RM.regionalNodes 150 200 [regA1, regB1]).get ⟨1, h1⟩).regionLabel =
        "rb" := rfl
    rw [hu, hv]
    decide
  refine ⟨by decide, (RM.regionalNodes 150 200 [regA1, regB1]).get ⟨0, h0⟩,
    List.get_mem _ _ _, (RM.regionalNodes 150 200 [regA1, regB1]).get ⟨1, h1⟩,
    List.get_mem _ _ _, hlt, ?_⟩
  exact c3_regional_bands_amended 150 200 [regA1, regB1] (by decide) _
    (List.get_mem _ _ _) _ (List.get_mem _ _ _) hlt

end AwsMap

namespace AwsMap

/-- C4: under the circular layout, the node of the resource at input
position i sits at the exact point (R cos (i step), R sin (i step)) for
R = max(50 n, 400) and step = 2 pi / n, hence at Euclidean distance
exactly R from the origin; the angles of consecutive resources differ by
exactly the step, starting from angle 0 for the first resource. -/
theorem c4_circular_radius_angles (rs : List AWSResource) (i : Nat)
    (h : i < rs.length) :
    ∃ nd, (RM.circularNodes rs).get? i = some nd ∧
      nd.pos.x = (max ((rs.length : ℝ) * 50) 400) *
        Real.cos (↑i * (2 * Real.pi / ↑rs.length)) ∧
      nd.pos.y = (max ((rs.length : ℝ) * 50) 400) *
        Real.sin (↑i * (2 * Real.pi / ↑rs.length)) ∧
      Real.sqrt (nd.pos.x ^ 2 + nd.pos.y ^ 2) = (max ((rs.length : ℝ) * 50) 400) ∧
      (↑(i + 1) * (2 * Real.pi / ↑rs.length) - ↑i * (2 * Real.pi / ↑rs.length)) =
        2 * Real.pi / ↑rs.length := by
  obtain ⟨r, _, hnode⟩ := circularGo_getEntry (max (↑rs.length * 50) 400)
    (2 * Real.pi / ↑rs.length) rs 0 i h
  have hR : (0 : ℝ) ≤ max ((rs.length : ℝ) * 50) 400 :=
    le_trans (by norm_num : (0 : ℝ) ≤ 400) (le_max_right ((rs.length : ℝ) * 50) 400)
  refine ⟨_, hnode, ?_, ?_, ?_, ?_⟩
  · simp [RM.createNodeObject]
  · simp [RM.createNodeObject]
  · have hx : (RM.createNodeObject r
        ((max ((rs.length : ℝ) * 50) 400) * Real.cos (↑(0 + i) * (2 * Real.pi / ↑rs.length)))
        ((max ((rs.length : ℝ) * 50) 400) *
          Real.sin (↑(0 + i) * (2 * Real.pi / ↑rs.length)))).pos.x =
        (max ((rs.length : ℝ) * 50) 400) * Real.cos (↑(0 + i) * (2 * Real.pi / ↑rs.length)) :=
      rfl
    have hy : (RM.createNodeObject r
        ((max ((rs.length : ℝ) * 50) 400) * Real.cos (↑(0 + i) * (2 * Real.pi / ↑rs.length)))
        ((max ((rs.length : ℝ) * 50) 400) *
          Real.sin (↑(0 + i) * (2 * Real.pi / ↑rs.length)))).pos.y =
        (max ((rs.length : ℝ) * 50) 400) * Real.sin (↑(0 + i) * (2 * Real.pi / ↑rs.length)) :=
      rfl
    rw [hx, hy]
    have hsum : ((max ((rs.length : ℝ) * 50) 400) *
          Real.cos (↑(0 + i) * (2 * Real.pi / ↑rs.length))) ^ 2 +
        ((max ((rs.length : ℝ) * 50) 400) *
          Real.sin (↑(0 + i) * (2 * Real.pi / ↑rs.length))) ^ 2 =
        (max ((rs.length : ℝ) * 50) 400) ^ 2 := by
      have hid := Real.sin_sq_add_cos_sq (↑(0 + i) * (2 * Real.pi / ↑rs.length))
      nlinarith [hid]
    rw [hsum]
    exact Real.sqrt_sq hR
  · push_cast
    ring

/-- C4 witness: the circular placement facts hold at the single-resource
input and index 0. -/
theorem c4_circular_radius_angles_witness :
    0 < ([plainSample] : List AWSResource).length ∧
    (∃ nd, (RM.circularNodes [plainSample]).get? 0 = some nd ∧
      nd.pos.x = (max ((([plainSample] : List AWSResource).length : ℝ) * 50) 400) *
        Real.cos (↑(0 : Nat) * (2 * Real.pi / ↑([plainSample] : List AWSResource).length)) ∧
      nd.pos.y = (max ((([plainSample] : List AWSResource).length : ℝ) * 50) 400) *
        Real.sin (↑(0 : Nat) * (2 * Real.pi / ↑([plainSample] : List AWSResource).length)) ∧
      Real.sqrt (nd.pos.x ^ 2 + nd.pos.y ^ 2) =
        (max ((([plainSample] : List AWSResource).length : ℝ) * 50) 400) ∧
      (↑((0 : Nat) + 1) * (2 * Real.pi / ↑([plainSample] : List AWSResource).length) -
          ↑(0 : Nat) * (2 * Real.pi / ↑([plainSample] : List AWSResource).length)) =
        2 * Real.pi / ↑([plainSample] : List AWSResource).length) :=
  ⟨by decide, c4_circular_radius_angles [plainSample] 0 (by decide)⟩

/-- C6: a resource holding exactly the security group references sg-1
and sg-2 yields exactly two edges labeled Security Group, with the
resource id as source and the two group ids as targets, in both builder
variants, both when the input is the resource alone and when standalone
resources (such as ones with ids sg-1 and sg-2) accompany it. -/
theorem c6_security_group_edges (sel : Option String) (r s1 s2 : AWSResource)
    (rel : Relationships) (hr : r.relationships = some rel)
    (hsg : rel.securityGroups = some ["sg-1", "sg-2"])
    (hs1 : s1.relationships = none) (hs2 : s2.relationships = none) :
    ((RM.createEdges sel [r]).filter (fun e => e.label == "Security Group")).map
        (fun e => (e.source, e.target)) = [(r.id, "sg-1"), (r.id, "sg-2")] ∧
    ((RM.createEdges sel [r, s1, s2]).filter (fun e => e.label == "Security Group")).map
        (fun e => (e.source, e.target)) = [(r.id, "sg-1"), (r.id, "sg-2")] ∧
    ((V1.createEdges sel [r]).filter (fun e => e.label == "Security Group")).map
        (fun e => (e.source, e.target)) = [(r.id, "sg-1"), (r.id, "sg-2")] ∧
    ((V1.createEdges sel [r, s1, s2]).filter (fun e => e.label == "Security Group")).map
        (fun e => (e.source, e.target)) = [(r.id, "sg-1"), (r.id, "sg-2")] := by
  refine ⟨?_, ?_, ?_, ?_⟩
  · rw [RM.createEdges]
    simp only [List.flatMap_cons, List.flatMap_nil, List.append_nil]
    rw [foldl_pushEdge_filter]
    rw [rmEmissions_filter_sg r rel hr hsg]
    simp
  · rw [RM.createEdges]
    simp only [List.flatMap_cons, List.flatMap_nil, List.append_nil]
    rw [rmEmissions_none s1 hs1, rmEmissions_none s2 hs2]
    simp only [List.append_nil]
    rw [foldl_pushEdge_filter]
    rw [rmEmissions_filter_sg r rel hr hsg]
    simp
  · rw [V1.createEdges]
    simp only [List.flatMap_cons, List.flatMap_nil, List.append_nil]
    rw [v1Emissions_decomp]
    exact v1_sg_fold sel r rel hr hsg _ (v1Rest_avoid [r] r)
  · rw [V1.createEdges]
    simp only [List.flatMap_cons, List.flatMap_nil, List.append_nil]
    rw [v1Emissions_decomp, List.append_assoc]
    refine v1_sg_fold sel r rel hr hsg _ ?_
    intro em hm
    rcases List.mem_append.mp hm with hm | hm
    · exact v1Rest_avoid [r, s1, s2] r em hm
    · rcases List.mem_append.mp hm with hm | hm
      · exact v1Emissions_avoid [r, s1, s2] s1 hs1 em hm
      · exact v1Emissions_avoid [r, s1, s2] s2 hs2 em hm

/-- C6 witness: the two Security Group edges appear for the concrete
sample resource, alone and next to standalone sg-1 and sg-2 resources. -/
theorem c6_security_group_edges_witness :
    sgSample.relationships = some { securityGroups := some ["sg-1", "sg-2"] } ∧
    sgNode1.relationships = none ∧ sgNode2.relationships = none ∧
    (((RM.createEdges none [sgSample]).filter
        (fun e => e.label == "Security Group")).map (fun e => (e.source, e.target)) =
      [(sgSample.id, "sg-1"), (sgSample.id, "sg-2")] ∧
    ((RM.createEdges none [sgSample, sgNode1, sgNode2]).filter
        (fun e => e.label == "Security Group")).map (fun e => (e.source, e.target)) =
      [(sgSample.id, "sg-1"), (sgSample.id, "sg-2")] ∧
    ((V1.createEdges none [sgSample]).filter
        (fun e => e.label == "Security Group")).map (fun e => (e.source, e.target)) =
      [(sgSample.id, "sg-1"), (sgSample.id, "sg-2")] ∧
    ((V1.createEdges none [sgSample, sgNode1, sgNode2]).filter
        (fun e => e.label == "Security Group")).map (fun e => (e.source, e.target)) =
      [(sgSample.id, "sg-1"), (sgSample.id, "sg-2")]) :=
  ⟨rfl, rfl, rfl,
    c6_security_group_edges none sgSample sgNode1 sgNode2
      { securityGroups := some ["sg-1", "sg-2"] } rfl rfl rfl rfl⟩

end AwsMap
